import Mathlib

/-!
# Wire protocol of the node: header codec and message parser

A shallow embedding of `nano/node/common.cpp`.

* A `nano::stream` that is being read is the list of its unread bytes.
* A member function that returns `bool` (true = error) and fills in an object
  becomes a function into `Option`: `none` is the return value `true`, and
  `some (x, rest)` is the return value `false` together with the object that was
  filled in and the unread remainder of the stream.  After a failed read the C++
  code never touches the stream or the half-filled object again.
* What `common.cpp` uses but does not define is a parameter: enumerator values,
  protocol constants, `valid_magic`, `valid_network`, the block and vote codecs,
  the work check.  The stream primitives and the bit positions that the
  specification fixes are modelled from it and marked so.
* The visitor is the list of the calls it has received.
-/

namespace nano

/-- Unread bytes of a `nano::stream`, next byte first. -/
abbrev stream := List Nat

/-- Modelled from the spec: `nano::read` on a fixed-size byte array of `n` bytes
(the template lives in `nano/lib/blocks.hpp`); it fails when fewer than `n`
bytes are available. -/
def read_bytes (n : Nat) (s : stream) : Option (List Nat × stream) :=
  if n ≤ s.length then some (s.take n, s.drop n) else none

/-- Modelled from the spec: `nano::read` on a `uint8_t`. -/
def read_uint8 : stream → Option (Nat × stream)
  | [] => none
  | b :: rest => some (b, rest)

/-- Modelled from the spec: `nano::read` on a `uint16_t`; the two bytes are taken
low byte first (the fixed byte order of the wire format). -/
def read_uint16 : stream → Option (Nat × stream)
  | b0 :: b1 :: rest => some (b0 + 256 * b1, rest)
  | _ => none

/-- Modelled from the spec: `nano::write` on a `uint8_t`. -/
def write_uint8 (v : Nat) : List Nat := [v]

/-- Modelled from the spec: `nano::write` on a `uint16_t`, low byte first. -/
def write_uint16 (v : Nat) : List Nat := [v % 256, v / 256 % 256]

/-- Enumerators of `nano::message_type : uint8_t` (declared in
`nano/node/common.hpp`); each field is the underlying value of that enumerator. -/
structure message_type where
  keepalive : Nat
  publish : Nat
  confirm_req : Nat
  confirm_ack : Nat
  bulk_pull : Nat
  bulk_push : Nat
  frontier_req : Nat
  node_id_handshake : Nat
  bulk_pull_account : Nat

/-- The enumerators, in the order of the structure. -/
def message_type.enumerators (T : message_type) : List Nat :=
  [T.keepalive, T.publish, T.confirm_req, T.confirm_ack, T.bulk_pull, T.bulk_push,
    T.frontier_req, T.node_id_handshake, T.bulk_pull_account]

/-- Enumerators of `nano::block_type : uint8_t` (declared in
`nano/lib/blocks.hpp`); each field is the underlying value of that enumerator. -/
structure block_type where
  not_a_block : Nat
  send : Nat
  receive : Nat
  open_ : Nat
  change : Nat
  state : Nat

/-- The enumerators, in the order of the structure. -/
def block_type.enumerators (B : block_type) : List Nat :=
  [B.not_a_block, B.send, B.receive, B.open_, B.change, B.state]

/-- The networks of `nano::nano_networks`. -/
inductive nano_networks where
  | nano_test_network
  | nano_beta_network
  | nano_live_network
deriving DecidableEq, Repr

/-- Fields of `nano::message_header`.  `type` holds the underlying byte of the
`message_type` enum exactly as read from the wire, and `extensions` the value of
the `std::bitset<16>`. -/
structure message_header where
  version_max : Nat
  version_using : Nat
  version_min : Nat
  type : Nat
  extensions : Nat
deriving DecidableEq, Repr

/-- Compile-time constants and inline header members that `common.cpp` uses but
does not define. -/
structure constants where
  nano_network : nano_networks
  magic_number : Nat × Nat
  protocol_version : Nat
  protocol_version_min : Nat
  protocol_version_reasonable_min : Nat
  message_type : message_type
  block_type : block_type
  valid_magic : message_header → Bool
  valid_network : message_header → Bool

/-- Modelled from the spec: `message_header::block_type_mask`, bits 8-11 of the
extensions. -/
def message_header.block_type_mask : Nat := 0x0f00

/-- Embedding of `message_header::message_header (nano::message_type)`; a fresh bitset is
zero. -/
def message_header.mk_type (c : constants) (type_a : Nat) : message_header :=
  { version_max := c.protocol_version
    version_using := c.protocol_version
    version_min := c.protocol_version_min
    type := type_a
    extensions := 0 }

/-- Embedding of `message_header::serialize`: the bytes written to the stream. -/
def message_header.serialize (c : constants) (h : message_header) : List Nat :=
  [c.magic_number.1, c.magic_number.2]
    ++ write_uint8 h.version_max
    ++ write_uint8 h.version_using
    ++ write_uint8 h.version_min
    ++ write_uint8 h.type
    ++ write_uint16 (h.extensions % 65536)

/-- Embedding of `message_header::deserialize`. -/
def message_header.deserialize (c : constants) (s : stream) : Option (message_header × stream) :=
  match read_bytes 2 s with
  | none => none
  | some (magic_number_l, s1) =>
    if magic_number_l ≠ [c.magic_number.1, c.magic_number.2] then none
    else
      match read_uint8 s1 with
      | none => none
      | some (version_max, s2) =>
        match read_uint8 s2 with
        | none => none
        | some (version_using, s3) =>
          match read_uint8 s3 with
          | none => none
          | some (version_min, s4) =>
            match read_uint8 s4 with
            | none => none
            | some (type, s5) =>
              match read_uint16 s5 with
              | none => none
              | some (extensions_l, s6) =>
                some ({ version_max := version_max
                        version_using := version_using
                        version_min := version_min
                        type := type
                        extensions := extensions_l }, s6)

/-- Embedding of `message_header::block_type`. -/
def message_header.block_type (h : message_header) : Nat :=
  (h.extensions &&& message_header.block_type_mask) >>> 8

/-- Embedding of `message_header::block_type_set`; `~block_type_mask` is taken in 16 bits
and the `std::bitset<16>` constructor keeps the low 16 bits of its argument. -/
def message_header.block_type_set (h : message_header) (type_a : Nat) : message_header :=
  { h with
    extensions :=
      (h.extensions &&& (message_header.block_type_mask ^^^ 65535)) ||| ((type_a <<< 8) % 65536) }

/-- Live-network instance of the constants, used as a concrete example. -/
def live_constants : constants :=
  { nano_network := nano_networks.nano_live_network
    magic_number := (0x52, 0x43)
    protocol_version := 0x10
    protocol_version_min := 0x0d
    protocol_version_reasonable_min := 0x0d
    message_type :=
      { keepalive := 2, publish := 3, confirm_req := 4, confirm_ack := 5, bulk_pull := 6,
        bulk_push := 7, frontier_req := 8, node_id_handshake := 10, bulk_pull_account := 11 }
    block_type := { not_a_block := 1, send := 2, receive := 3, open_ := 4, change := 5, state := 6 }
    valid_magic := fun _ => true
    valid_network := fun _ => true }

/-- Lowest `version_using` the parser lets through: `protocol_version_min`, or
`protocol_version_reasonable_min` on the beta network. -/
def minimum_version (c : constants) : Nat :=
  if c.nano_network = nano_networks.nano_beta_network then c.protocol_version_reasonable_min
  else c.protocol_version_min

/-- A `nano::endpoint`: the 16 bytes of its IPv6 address and its port. -/
structure endpoint where
  address : List Nat
  port : Nat
deriving DecidableEq, Repr

/-- Modelled from the spec: `nano::vote` (declared in `nano/secure/common.hpp`): account,
signature, sequence number and the ordered entries, each a full block (`which () == 0`)
or a 32-byte hash. -/
structure vote (Block : Type) where
  account : List Nat
  signature : List Nat
  sequence : Nat
  blocks : List (Block ⊕ List Nat)

/-- Embedding of `nano::keepalive`; `peers` is the `std::array<nano::endpoint, 8>`. -/
structure keepalive where
  header : message_header
  peers : List endpoint
deriving DecidableEq, Repr

/-- Embedding of `nano::publish`. -/
structure publish (Block : Type) where
  header : message_header
  block : Block

/-- Embedding of `nano::confirm_req`. -/
structure confirm_req (Block : Type) where
  header : message_header
  block : Block

/-- Embedding of `nano::confirm_ack`. -/
structure confirm_ack (Block : Type) where
  header : message_header
  vote : vote Block

/-- Embedding of `nano::frontier_req`. -/
structure frontier_req where
  header : message_header
  start : List Nat
  age : Nat
  count : Nat
deriving DecidableEq, Repr

/-- Embedding of `nano::bulk_pull`. -/
structure bulk_pull where
  header : message_header
  start : List Nat
  end_ : List Nat
  count : Nat
deriving DecidableEq, Repr

/-- Embedding of `nano::bulk_pull_account`. -/
structure bulk_pull_account where
  header : message_header
  account : List Nat
  minimum_amount : List Nat
  flags : Nat
deriving DecidableEq, Repr

/-- Embedding of `nano::bulk_push`. -/
structure bulk_push where
  header : message_header
deriving DecidableEq, Repr

/-- Embedding of `nano::node_id_handshake`; the two `boost::optional` members. -/
structure node_id_handshake where
  header : message_header
  query : Option (List Nat)
  response : Option (List Nat × List Nat)
deriving DecidableEq, Repr

/-- One call of a `nano::message_visitor` method, with the message handed over. -/
inductive visitor_call (Block : Type) where
  | keepalive (m : nano.keepalive)
  | publish (m : nano.publish Block)
  | confirm_req (m : nano.confirm_req Block)
  | confirm_ack (m : nano.confirm_ack Block)
  | bulk_pull (m : nano.bulk_pull)
  | bulk_pull_account (m : nano.bulk_pull_account)
  | bulk_push (m : nano.bulk_push)
  | frontier_req (m : nano.frontier_req)
  | node_id_handshake (m : nano.node_id_handshake)

/-- The collaborators the parser calls into and `common.cpp` does not define:
`nano::deserialize_block` (with the block uniquer applied inside it), the stream
constructor of `nano::vote`, `vote_uniquer::unique` and `nano::work_validate`
(true = the work is NOT sufficient).  The two decoders return `none` for a null
pointer / a set error flag, otherwise the decoded object and what they left unread. -/
structure collaborators (Block : Type) where
  deserialize_block : stream → Nat → Option (Block × stream)
  vote_deserialize : stream → Nat → Option (vote Block × stream)
  vote_unique : vote Block → vote Block
  work_validate : Block → Bool

/-- Embedding of `message_parser::parse_status`. -/
inductive parse_status where
  | success
  | insufficient_work
  | invalid_header
  | invalid_message_type
  | invalid_keepalive_message
  | invalid_publish_message
  | invalid_confirm_req_message
  | invalid_confirm_ack_message
  | invalid_node_id_handshake_message
  | outdated_version
  | invalid_magic
  | invalid_network
deriving DecidableEq, Repr

/-- State of a `nano::message_parser` that a parse can change: its `status` member and
the calls received so far by the visitor it refers to (oldest first). -/
structure message_parser_state (Block : Type) where
  status : parse_status
  visitor : List (visitor_call Block)

/-- Embedding of `message_parser::max_safe_udp_message_size`. -/
def message_parser_state.max_safe_udp_message_size : Nat := 508

/-- Modelled from the spec: `node_id_handshake::query_flag`, bit 0 of the extensions. -/
def node_id_handshake.query_flag : Nat := 0

/-- Modelled from the spec: `node_id_handshake::response_flag`, bit 1 of the extensions. -/
def node_id_handshake.response_flag : Nat := 1

/-- Embedding of `std::bitset<16>::set (pos, value)` on the value of the bitset. -/
def bitset_set (bits pos : Nat) (value : Bool) : Nat :=
  if value then bits ||| ((1 <<< pos) % 65536) else bits &&& (((1 <<< pos) % 65536) ^^^ 65535)

/-- Embedding of `node_id_handshake::is_query_flag`, as a function of the header. -/
def node_id_handshake.is_query_flag (header : message_header) : Bool :=
  header.extensions.testBit node_id_handshake.query_flag

/-- Embedding of `node_id_handshake::set_query_flag`, as a function of the header. -/
def node_id_handshake.set_query_flag (header : message_header) (value_a : Bool) :
    message_header :=
  { header with extensions := bitset_set header.extensions node_id_handshake.query_flag value_a }

/-- Embedding of `node_id_handshake::is_response_flag`, as a function of the header. -/
def node_id_handshake.is_response_flag (header : message_header) : Bool :=
  header.extensions.testBit node_id_handshake.response_flag

/-- Embedding of `node_id_handshake::set_response_flag`, as a function of the header. -/
def node_id_handshake.set_response_flag (header : message_header) (value_a : Bool) :
    message_header :=
  { header with extensions := bitset_set header.extensions node_id_handshake.response_flag value_a }

/-- Embedding of `message_parser::at_end`: true when reading one more byte fails. -/
def message_parser_state.at_end (stream_a : stream) : Bool :=
  match read_uint8 stream_a with
  | none => true
  | some _ => false

/-- The loop of `keepalive::deserialize` over the remaining `n` slots of `peers`. -/
def keepalive.deserialize_peers : Nat → stream → Option (List endpoint × stream)
  | 0, s => some ([], s)
  | n + 1, s =>
    match read_bytes 16 s with
    | none => none
    | some (address, s1) =>
      match read_uint16 s1 with
      | none => none
      | some (port, s2) =>
        match keepalive.deserialize_peers n s2 with
        | none => none
        | some (peers, s3) => some ({ address := address, port := port } :: peers, s3)

/-- Embedding of `keepalive::keepalive (error, stream, header)` entered with `error == false`, that is
`keepalive::deserialize` on a message holding `header_a`. -/
def keepalive.deserialize (header_a : message_header) (stream_a : stream) :
    Option (keepalive × stream) :=
  match keepalive.deserialize_peers 8 stream_a with
  | none => none
  | some (peers, s) => some ({ header := header_a, peers := peers }, s)

/-- The loop of `keepalive::serialize`: address bytes and port of every peer in turn. -/
def keepalive.serialize_peers : List endpoint → List Nat
  | [] => []
  | i :: rest => i.address ++ write_uint16 i.port ++ keepalive.serialize_peers rest

/-- Embedding of `keepalive::serialize`: the header, then the peers. -/
def keepalive.serialize (c : constants) (k : keepalive) : List Nat :=
  message_header.serialize c k.header ++ keepalive.serialize_peers k.peers

/-- Embedding of `publish::publish (error, stream, header, uniquer)` entered with
`error == false`. -/
def publish.deserialize {Block : Type} (X : collaborators Block) (header_a : message_header)
    (stream_a : stream) : Option (publish Block × stream) :=
  match X.deserialize_block stream_a header_a.block_type with
  | none => none
  | some (block, s) => some ({ header := header_a, block := block }, s)

/-- Embedding of `confirm_req::confirm_req (error, stream, header, uniquer)` entered with
`error == false`. -/
def confirm_req.deserialize {Block : Type} (X : collaborators Block) (header_a : message_header)
    (stream_a : stream) : Option (confirm_req Block × stream) :=
  match X.deserialize_block stream_a header_a.block_type with
  | none => none
  | some (block, s) => some ({ header := header_a, block := block }, s)

/-- Embedding of `confirm_ack::confirm_ack (error, stream, header, uniquer)` with a uniquer present:
the vote is decoded with the header's block type and then passed through the uniquer. -/
def confirm_ack.deserialize {Block : Type} (X : collaborators Block) (header_a : message_header)
    (stream_a : stream) : Option (confirm_ack Block × stream) :=
  match X.vote_deserialize stream_a header_a.block_type with
  | none => none
  | some (v, s) => some ({ header := header_a, vote := X.vote_unique v }, s)

/-- The query part of `node_id_handshake::deserialize`. -/
def node_id_handshake.deserialize_query (header_a : message_header) (stream_a : stream) :
    Option (Option (List Nat) × stream) :=
  if node_id_handshake.is_query_flag header_a then
    match read_bytes 32 stream_a with
    | none => none
    | some (query_hash, s) => some (some query_hash, s)
  else some (none, stream_a)

/-- Embedding of `node_id_handshake::node_id_handshake (error, stream, header)`, that is
`node_id_handshake::deserialize` on a message with `query` and `response` absent. -/
def node_id_handshake.deserialize (header_a : message_header) (stream_a : stream) :
    Option (node_id_handshake × stream) :=
  match node_id_handshake.deserialize_query header_a stream_a with
  | none => none
  | some (query, s1) =>
    if node_id_handshake.is_response_flag header_a then
      match read_bytes 32 s1 with
      | none => none
      | some (response_account, s2) =>
        match read_bytes 64 s2 with
        | none => none
        | some (response_signature, s3) =>
          some ({ header := header_a, query := query,
                  response := some (response_account, response_signature) }, s3)
    else some ({ header := header_a, query := query, response := none }, s1)

/-- Embedding of `node_id_handshake::node_id_handshake (query, response)`. -/
def node_id_handshake.mk_fields (c : constants) (query : Option (List Nat))
    (response : Option (List Nat × List Nat)) : node_id_handshake :=
  let h0 := message_header.mk_type c c.message_type.node_id_handshake
  let h1 := if query.isSome then node_id_handshake.set_query_flag h0 true else h0
  let h2 := if response.isSome then node_id_handshake.set_response_flag h1 true else h1
  { header := h2, query := query, response := response }

/-- Embedding of `node_id_handshake::serialize`. -/
def node_id_handshake.serialize (c : constants) (m : node_id_handshake) : List Nat :=
  message_header.serialize c m.header
    ++ (match m.query with
        | some q => q
        | none => [])
    ++ (match m.response with
        | some r => r.1 ++ r.2
        | none => [])

/-- Embedding of `message_parser::deserialize_keepalive`. -/
def message_parser_state.deserialize_keepalive {Block : Type} (p : message_parser_state Block)
    (stream_a : stream) (header_a : message_header) : message_parser_state Block :=
  match keepalive.deserialize header_a stream_a with
  | some (incoming, s) =>
    if message_parser_state.at_end s then
      { p with visitor := p.visitor ++ [visitor_call.keepalive incoming] }
    else { p with status := parse_status.invalid_keepalive_message }
  | none => { p with status := parse_status.invalid_keepalive_message }

/-- Embedding of `message_parser::deserialize_publish`. -/
def message_parser_state.deserialize_publish {Block : Type} (X : collaborators Block)
    (p : message_parser_state Block) (stream_a : stream) (header_a : message_header) :
    message_parser_state Block :=
  match publish.deserialize X header_a stream_a with
  | some (incoming, s) =>
    if message_parser_state.at_end s then
      if !X.work_validate incoming.block then
        { p with visitor := p.visitor ++ [visitor_call.publish incoming] }
      else { p with status := parse_status.insufficient_work }
    else { p with status := parse_status.invalid_publish_message }
  | none => { p with status := parse_status.invalid_publish_message }

/-- Embedding of `message_parser::deserialize_confirm_req`. -/
def message_parser_state.deserialize_confirm_req {Block : Type} (X : collaborators Block)
    (p : message_parser_state Block) (stream_a : stream) (header_a : message_header) :
    message_parser_state Block :=
  match confirm_req.deserialize X header_a stream_a with
  | some (incoming, s) =>
    if message_parser_state.at_end s then
      if !X.work_validate incoming.block then
        { p with visitor := p.visitor ++ [visitor_call.confirm_req incoming] }
      else { p with status := parse_status.insufficient_work }
    else { p with status := parse_status.invalid_confirm_req_message }
  | none => { p with status := parse_status.invalid_confirm_req_message }

/-- The `for` loop of `message_parser::deserialize_confirm_ack` over the vote's entries:
the status it leaves, starting from `status`. -/
def message_parser_state.confirm_ack_work {Block : Type} (X : collaborators Block)
    (status : parse_status) : List (Block ⊕ List Nat) → parse_status
  | [] => status
  | Sum.inl block :: rest =>
    if X.work_validate block then parse_status.insufficient_work
    else message_parser_state.confirm_ack_work X status rest
  | Sum.inr _ :: rest => message_parser_state.confirm_ack_work X status rest

/-- Embedding of `message_parser::deserialize_confirm_ack`. -/
def message_parser_state.deserialize_confirm_ack {Block : Type} (X : collaborators Block)
    (p : message_parser_state Block) (stream_a : stream) (header_a : message_header) :
    message_parser_state Block :=
  match confirm_ack.deserialize X header_a stream_a with
  | some (incoming, s) =>
    if message_parser_state.at_end s then
      let p1 := { p with status := message_parser_state.confirm_ack_work X p.status incoming.vote.blocks }
      if p1.status = parse_status.success then
        { p1 with visitor := p1.visitor ++ [visitor_call.confirm_ack incoming] }
      else p1
    else { p with status := parse_status.invalid_confirm_ack_message }
  | none => { p with status := parse_status.invalid_confirm_ack_message }

/-- Embedding of `message_parser::deserialize_node_id_handshake`. -/
def message_parser_state.deserialize_node_id_handshake {Block : Type}
    (p : message_parser_state Block) (stream_a : stream) (header_a : message_header) :
    message_parser_state Block :=
  match node_id_handshake.deserialize header_a stream_a with
  | some (incoming, s) =>
    if message_parser_state.at_end s then
      { p with visitor := p.visitor ++ [visitor_call.node_id_handshake incoming] }
    else { p with status := parse_status.invalid_node_id_handshake_message }
  | none => { p with status := parse_status.invalid_node_id_handshake_message }

/-- The `switch (header.type)` of `message_parser::deserialize_buffer`. -/
def message_parser_state.dispatch {Block : Type} (c : constants) (X : collaborators Block)
    (p : message_parser_state Block) (stream_a : stream) (header : message_header) :
    message_parser_state Block :=
  if header.type = c.message_type.keepalive then
    message_parser_state.deserialize_keepalive p stream_a header
  else if header.type = c.message_type.publish then
    message_parser_state.deserialize_publish X p stream_a header
  else if header.type = c.message_type.confirm_req then
    message_parser_state.deserialize_confirm_req X p stream_a header
  else if header.type = c.message_type.confirm_ack then
    message_parser_state.deserialize_confirm_ack X p stream_a header
  else if header.type = c.message_type.node_id_handshake then
    message_parser_state.deserialize_node_id_handshake p stream_a header
  else { p with status := parse_status.invalid_message_type }

/-- Embedding of `message_parser::deserialize_buffer`; the buffer `(buffer_a, size_a)` is the list of
its `size_a` bytes. -/
def message_parser_state.deserialize_buffer {Block : Type} (c : constants) (X : collaborators Block)
    (p : message_parser_state Block) (buffer_a : List Nat) : message_parser_state Block :=
  let p0 := { p with status := parse_status.success }
  if buffer_a.length ≤ message_parser_state.max_safe_udp_message_size then
    match message_header.deserialize c buffer_a with
    | some (header, stream) =>
      if c.nano_network = nano_networks.nano_beta_network
          ∧ header.version_using < c.protocol_version_reasonable_min then
        { p0 with status := parse_status.outdated_version }
      else if header.version_using < c.protocol_version_min then
        { p0 with status := parse_status.outdated_version }
      else if !c.valid_magic header then
        { p0 with status := parse_status.invalid_magic }
      else if !c.valid_network header then
        { p0 with status := parse_status.invalid_network }
      else message_parser_state.dispatch c X p0 stream header
    | none => { p0 with status := parse_status.invalid_header }
  else p0

/-- The checks of `deserialize_buffer` between a decoded header and the dispatch on its
type all pass: version, magic and network. -/
def message_parser_state.passes_checks (c : constants) (header : message_header) : Prop :=
  ¬ (c.nano_network = nano_networks.nano_beta_network
      ∧ header.version_using < c.protocol_version_reasonable_min)
    ∧ ¬ header.version_using < c.protocol_version_min
    ∧ c.valid_magic header = true
    ∧ c.valid_network header = true

instance (c : constants) (header : message_header) :
    Decidable (message_parser_state.passes_checks c header) := by
  unfold message_parser_state.passes_checks; infer_instance

/-- Collaborators over one-byte blocks, used as a concrete example: a block is one byte,
its work is insufficient when the byte is zero, and a vote is never decoded. -/
def byte_collaborators : collaborators Nat :=
  { deserialize_block := fun s _ =>
      match s with
      | [] => none
      | b :: rest => some (b, rest)
    vote_deserialize := fun _ _ => none
    vote_unique := fun v => v
    work_validate := fun b => b == 0 }

/-- A parser as its constructor leaves it: status `success`, no visitor call yet. -/
def message_parser_state.initial (Block : Type) : message_parser_state Block :=
  { status := parse_status.success, visitor := [] }

/-- Embedding of `keepalive::keepalive ()`: eight times the unspecified IPv6 address with
port 0. -/
def keepalive.mk_default (c : constants) : keepalive :=
  { header := message_header.mk_type c c.message_type.keepalive
    peers := List.replicate 8 { address := List.replicate 16 0, port := 0 } }

/-- A keepalive message as the program holds it: type tag keepalive, a 16-bit extensions
value, eight peers, each with the 16 bytes of an IPv6 address. -/
def keepalive.wf (c : constants) (k : keepalive) : Prop :=
  k.header.type = c.message_type.keepalive ∧ k.header.extensions < 65536 ∧
    k.peers.length = 8 ∧ ∀ e ∈ k.peers, e.address.length = 16

/-- A node_id_handshake message as the program holds it: type tag node_id_handshake, a
16-bit extensions value whose query and response bits say which fields are present, a
32-byte query, a 32-byte account and a 64-byte signature. -/
def node_id_handshake.wf (c : constants) (m : node_id_handshake) : Prop :=
  m.header.type = c.message_type.node_id_handshake ∧ m.header.extensions < 65536 ∧
    node_id_handshake.is_query_flag m.header = m.query.isSome ∧
    node_id_handshake.is_response_flag m.header = m.response.isSome ∧
    (∀ q, m.query = some q → q.length = 32) ∧
    (∀ r, m.response = some r → r.1.length = 32 ∧ r.2.length = 64)

/-- Embedding of `keepalive::operator==`: the peers are compared, the header is not. -/
def keepalive.eq (a other_a : keepalive) : Bool :=
  a.peers == other_a.peers

/-- Modelled from the spec: `nano::read` on a `uint32_t`, low byte first. -/
def read_uint32 : stream → Option (Nat × stream)
  | b0 :: b1 :: b2 :: b3 :: rest => some (b0 + 256 * b1 + 65536 * b2 + 16777216 * b3, rest)
  | _ => none

/-- Modelled from the spec: `nano::write` on a `uint32_t`, low byte first. -/
def write_uint32 (v : Nat) : List Nat :=
  [v % 256, v / 256 % 256, v / 65536 % 256, v / 16777216 % 256]

/-- The `n` low bytes of `v`, lowest first: an `n`-byte unsigned integer in little-endian
order (`boost::endian::native_to_little` followed by `memcpy` out of the integer). -/
def to_little_endian : Nat → Nat → List Nat
  | 0, _ => []
  | n + 1, v => v % 256 :: to_little_endian n (v / 256)

/-- The unsigned integer whose little-endian bytes are the list (`memcpy` into the integer
followed by `boost::endian::little_to_native_inplace`). -/
def of_little_endian : List Nat → Nat
  | [] => 0
  | b :: rest => b + 256 * of_little_endian rest

/-- Embedding of `frontier_req::deserialize` on a message holding `header_a`; `start` is 32
bytes, `age` and `count` are `uint32_t`. -/
def frontier_req.deserialize (header_a : message_header) (stream_a : stream) :
    Option (frontier_req × stream) :=
  match read_bytes 32 stream_a with
  | none => none
  | some (start, s1) =>
    match read_uint32 s1 with
    | none => none
    | some (age, s2) =>
      match read_uint32 s2 with
      | none => none
      | some (count, s3) =>
        some ({ header := header_a, start := start, age := age, count := count }, s3)

/-- Embedding of `frontier_req::serialize`. -/
def frontier_req.serialize (c : constants) (m : frontier_req) : List Nat :=
  message_header.serialize c m.header ++ m.start ++ write_uint32 m.age ++ write_uint32 m.count

/-- Embedding of `frontier_req::operator==`. -/
def frontier_req.eq (a other_a : frontier_req) : Bool :=
  a.start == other_a.start && a.age == other_a.age && a.count == other_a.count

/-- Modelled from the spec: `bulk_pull::count_present_flag`, bit 0 of the extensions. -/
def bulk_pull.count_present_flag : Nat := 0

/-- Modelled from the spec: `bulk_pull::extended_parameters_size`, the 8 bytes of the
extended-parameters block. -/
def bulk_pull.extended_parameters_size : Nat := 8

/-- Modelled from the spec: `bulk_pull::size`, 32 bytes of `start` and 32 bytes of `end`. -/
def bulk_pull.size : Nat := 64

/-- Modelled from the spec: `frontier_req::size`, 32 + 4 + 4 bytes. -/
def frontier_req.size : Nat := 40

/-- Modelled from the spec: `bulk_pull_account::size`, 32 + 16 + 1 bytes. -/
def bulk_pull_account.size : Nat := 49

/-- Embedding of `bulk_pull::is_count_present`, as a function of the header. -/
def bulk_pull.is_count_present (header : message_header) : Bool :=
  header.extensions.testBit bulk_pull.count_present_flag

/-- Embedding of `bulk_pull::set_count_present`, as a function of the header. -/
def bulk_pull.set_count_present (header : message_header) (value_a : Bool) : message_header :=
  { header with extensions := bitset_set header.extensions bulk_pull.count_present_flag value_a }

/-- Embedding of `bulk_pull::deserialize` on a message holding `header_a` (the constructor
has set `count` to 0 before).  `sizeof_count` is `sizeof (count)`; the type of `count` is
declared outside `common.cpp` and the `static_assert` keeps it below 7. -/
def bulk_pull.deserialize (sizeof_count : Nat) (header_a : message_header) (stream_a : stream) :
    Option (bulk_pull × stream) :=
  match read_bytes 32 stream_a with
  | none => none
  | some (start, s1) =>
    match read_bytes 32 s1 with
    | none => none
    | some (end_, s2) =>
      if bulk_pull.is_count_present header_a then
        match read_bytes bulk_pull.extended_parameters_size s2 with
        | none => none
        | some (extended_parameters_buffers, s3) =>
          if extended_parameters_buffers.head? ≠ some 0 then none
          else
            some ({ header := header_a, start := start, end_ := end_,
                    count := of_little_endian
                      ((extended_parameters_buffers.drop 1).take sizeof_count) }, s3)
      else some ({ header := header_a, start := start, end_ := end_, count := 0 }, s2)

/-- Embedding of `bulk_pull::serialize`: the 8-byte `count_buffer` is zero except for the
`sizeof (count)` little-endian bytes of `count` from index 1 on. -/
def bulk_pull.serialize (c : constants) (sizeof_count : Nat) (m : bulk_pull) : List Nat :=
  message_header.serialize c m.header ++ m.start ++ m.end_
    ++ (if bulk_pull.is_count_present m.header then
          [0] ++ to_little_endian sizeof_count m.count
            ++ List.replicate (bulk_pull.extended_parameters_size - 1 - sizeof_count) 0
        else [])

/-- The condition asserted at the top of `bulk_pull::serialize`. -/
def bulk_pull.serialize_assertion (m : bulk_pull) : Prop :=
  (m.count = 0 ∧ bulk_pull.is_count_present m.header = false) ∨
    (m.count ≠ 0 ∧ bulk_pull.is_count_present m.header = true)

/-- Embedding of `bulk_pull_account::deserialize` on a message holding `header_a`: a 32-byte
account, a 16-byte amount and one byte of flags. -/
def bulk_pull_account.deserialize (header_a : message_header) (stream_a : stream) :
    Option (bulk_pull_account × stream) :=
  match read_bytes 32 stream_a with
  | none => none
  | some (account, s1) =>
    match read_bytes 16 s1 with
    | none => none
    | some (minimum_amount, s2) =>
      match read_uint8 s2 with
      | none => none
      | some (flags, s3) =>
        some ({ header := header_a, account := account, minimum_amount := minimum_amount,
                flags := flags }, s3)

/-- Embedding of `bulk_pull_account::serialize`. -/
def bulk_pull_account.serialize (c : constants) (m : bulk_pull_account) : List Nat :=
  message_header.serialize c m.header ++ m.account ++ m.minimum_amount ++ write_uint8 m.flags

/-- Embedding of `bulk_push::deserialize`: nothing is read and no error is reported. -/
def bulk_push.deserialize (header_a : message_header) (stream_a : stream) :
    Option (bulk_push × stream) :=
  some ({ header := header_a }, stream_a)

/-- Embedding of `bulk_push::serialize`. -/
def bulk_push.serialize (c : constants) (m : bulk_push) : List Nat :=
  message_header.serialize c m.header

/-- Modelled from the spec: `message_header::bulk_pull_count_present_flag`, bit 0 of the
extensions. -/
def message_header.bulk_pull_count_present_flag : Nat := 0

/-- Embedding of `message_header::bulk_pull_is_count_present`. -/
def message_header.bulk_pull_is_count_present (c : constants) (h : message_header) : Bool :=
  if h.type = c.message_type.bulk_pull then
    if h.extensions.testBit message_header.bulk_pull_count_present_flag then true else false
  else false

/-- Embedding of `message_header::payload_length_bytes`; the `default` branch (an
`assert (false)` followed by `return 0`) gives 0. -/
def message_header.payload_length_bytes (c : constants) (h : message_header) : Nat :=
  if h.type = c.message_type.bulk_pull then
    bulk_pull.size
      + (if h.bulk_pull_is_count_present c then bulk_pull.extended_parameters_size else 0)
  else if h.type = c.message_type.bulk_push then 0
  else if h.type = c.message_type.frontier_req then frontier_req.size
  else if h.type = c.message_type.bulk_pull_account then bulk_pull_account.size
  else 0

/-- Embedding of `node_id_handshake::operator==`.  `*query` and `*response` dereference the
`boost::optional` members, which is defined only when they hold a value: `none` stands for
the dereference of an empty optional.  `&&` does not evaluate its right side when the
queries differ. -/
def node_id_handshake.eq (a other_a : node_id_handshake) : Option Bool :=
  match a.query, other_a.query with
  | some q, some other_q =>
    if q = other_q then
      match a.response, other_a.response with
      | some r, some other_r => some (decide (r = other_r))
      | _, _ => none
    else some false
  | _, _ => none

/-- Embedding of `confirm_ack::confirm_ack (std::shared_ptr<nano::vote>)`.  `type_of` is
`nano::block::type ()`, declared outside `common.cpp`; `vote_a->blocks[0]` needs a first
entry, so the result is `none` on an empty list. -/
def confirm_ack.mk_vote {Block : Type} (c : constants) (type_of : Block → Nat)
    (vote_a : nano.vote Block) : Option (confirm_ack Block) :=
  match vote_a.blocks with
  | [] => none
  | first_vote_block :: _ =>
    let header := message_header.mk_type c c.message_type.confirm_ack
    match first_vote_block with
    | Sum.inr _ =>
      some { header := header.block_type_set c.block_type.not_a_block, vote := vote_a }
    | Sum.inl block => some { header := header.block_type_set (type_of block), vote := vote_a }

/-- Characters `std::isspace` accepts in the "C" locale: space, `\t`, `\n`, `\v`, `\f`,
`\r`. -/
def is_space (ch : Char) : Bool :=
  ch.toNat = 32 || (9 ≤ ch.toNat && ch.toNat ≤ 13)

/-- Largest `unsigned long`, taken as 64 bits wide. -/
def ulong_max : Nat := 18446744073709551615

/-- The C++ standard library's `std::stoul (str, &pos)` in base 10 on a string given as the
list of its characters: leading white space, an optional sign, then decimal digits.  The
result is `none` when it throws (no digit: `std::invalid_argument`; value above
`ULONG_MAX`: `std::out_of_range`), otherwise the converted value (negated modulo
`ULONG_MAX + 1` after a minus sign) and `pos`, the number of characters processed. -/
def stoul (str : List Char) : Option (Nat × Nat) :=
  let white := str.takeWhile is_space
  let s1 := str.dropWhile is_space
  let negative := s1.head? = some '-'
  let sign_length := if s1.head? = some '-' ∨ s1.head? = some '+' then 1 else 0
  let digits := (s1.drop sign_length).takeWhile Char.isDigit
  let value := digits.foldl (fun acc d => 10 * acc + (d.toNat - 48)) 0
  if digits = [] then none
  else if ulong_max < value then none
  else
    some (if negative then (ulong_max + 1 - value) % (ulong_max + 1) else value,
      white.length + sign_length + digits.length)

/-- Embedding of `nano::parse_port`: the returned flag (true = error) and the value left in
`port_a`, a `uint16_t` that receives the result of `std::stoul` when it does not throw. -/
def parse_port (string_a : List Char) (port_a : Nat) : Bool × Nat :=
  match stoul string_a with
  | some (value, converted) =>
    (converted != string_a.length || decide (converted > 65535), value % 65536)
  | none => (true, port_a)

/-- Position of the last `ch` in the string, as `std::string::rfind`; `none` is `npos`. -/
def rfind (ch : Char) : List Char → Option Nat
  | [] => none
  | x :: rest =>
    match rfind ch rest with
    | some i => some (i + 1)
    | none => if x = ch then some 0 else none

/-- Embedding of `nano::parse_address_port`: the returned flag (true = error) and the values
left in `address_a` and `port_a`.  `from_string` is
`boost::asio::ip::address_v6::from_string`, `none` when it sets the error code. -/
def parse_address_port {Address : Type} (from_string : List Char → Option Address)
    (string : List Char) (address_a : Address) (port_a : Nat) : Bool × Address × Nat :=
  match rfind ':' string with
  | some port_position =>
    if port_position > 0 then
      let port_string := string.drop (port_position + 1)
      match parse_port port_string 0 with
      | (false, port) =>
        match from_string (string.take port_position) with
        | some address => (false, address, port)
        | none => (true, address_a, port_a)
      | (true, _) => (true, address_a, port_a)
    else (true, address_a, port_a)
  | none => (true, address_a, port_a)

/-- An address parser used as a concrete example: it accepts the text `::1` only. -/
def loopback_from_string (s : List Char) : Option (List Char) :=
  if s = [':', ':', '1'] then some s else none

/-- Collaborators used as a concrete example for votes: every byte of the stream is one
entry of the vote, a hash when the byte is 128 or more and otherwise a full block holding
that byte; the work of a block is insufficient when its byte is zero. -/
def vote_collaborators : collaborators Nat :=
  { deserialize_block := fun _ _ => none
    vote_deserialize := fun s _ =>
      some ({ account := [], signature := [], sequence := 0,
              blocks := s.map (fun b => if b < 128 then Sum.inl b else Sum.inr [b]) }, [])
    vote_unique := fun v => v
    work_validate := fun b => b == 0 }

theorem write_uint16_read (v : Nat) (hv : v < 65536) (rest : stream) :
    read_uint16 (write_uint16 v ++ rest) = some (v, rest) := by
  simp only [write_uint16, read_uint16, List.cons_append, List.nil_append]
  congr 2
  omega

theorem header_serialize_deserialize (c : constants) (h : message_header) (rest : stream)
    (hext : h.extensions < 65536) :
    (message_header.serialize c h).length = 8 ∧
      message_header.deserialize c (message_header.serialize c h ++ rest) = some (h, rest) := by
  refine ⟨by simp [message_header.serialize, write_uint8, write_uint16], ?_⟩
  have h16 := write_uint16_read h.extensions hext rest
  simp only [write_uint16, List.cons_append, List.nil_append] at h16
  simp [message_header.serialize, message_header.deserialize, read_bytes, read_uint8,
    write_uint8, write_uint16, h16, Nat.mod_eq_of_lt hext]

/-- C1: `message_header::serialize` writes exactly 8 bytes, and `message_header::deserialize`
on those bytes (followed by anything) reports no error, stops right after them, and yields a
header with the same `version_max`, `version_using`, `version_min`, `type` and `extensions`. -/
theorem header_roundtrip (c : constants) (h : message_header) (rest : stream)
    (hext : h.extensions < 65536) :
    (message_header.serialize c h).length = 8 ∧
      ∃ h2, message_header.deserialize c (message_header.serialize c h ++ rest) = some (h2, rest) ∧
        h2.version_max = h.version_max ∧ h2.version_using = h.version_using ∧
        h2.version_min = h.version_min ∧ h2.type = h.type ∧ h2.extensions = h.extensions :=
  ⟨(header_serialize_deserialize c h rest hext).1,
    h, (header_serialize_deserialize c h rest hext).2, rfl, rfl, rfl, rfl, rfl⟩

/-- Instance of C1: a header with every extensions bit set and an unassigned type byte. -/
theorem header_roundtrip_witness :
    (65535 : Nat) < 65536 ∧
      (message_header.serialize live_constants ⟨0x10, 0x0f, 0x0d, 0xee, 65535⟩).length = 8 ∧
      ∃ h2, message_header.deserialize live_constants
          (message_header.serialize live_constants ⟨0x10, 0x0f, 0x0d, 0xee, 65535⟩ ++ [1, 2, 3])
            = some (h2, [1, 2, 3]) ∧
        h2.version_max = 0x10 ∧ h2.version_using = 0x0f ∧ h2.version_min = 0x0d ∧
        h2.type = 0xee ∧ h2.extensions = 65535 :=
  ⟨by decide, header_roundtrip live_constants ⟨0x10, 0x0f, 0x0d, 0xee, 65535⟩ [1, 2, 3]
    (by decide)⟩

theorem testBit_of_lt (x n i : Nat) (hx : x < 2 ^ n) (hi : n ≤ i) : x.testBit i = false :=
  Nat.testBit_lt_two_pow (lt_of_lt_of_le hx (Nat.pow_le_pow_right (by norm_num) hi))

theorem mask_testBit (i : Nat) :
    Nat.testBit message_header.block_type_mask i = decide (8 ≤ i ∧ i < 12) := by
  unfold message_header.block_type_mask
  by_cases hi : i < 12
  · interval_cases i <;> decide
  · rw [testBit_of_lt 0x0f00 12 i (by norm_num) (by omega)]
    simp; omega

theorem not_mask_testBit (i : Nat) :
    Nat.testBit (message_header.block_type_mask ^^^ 65535) i
      = decide (i < 8 ∨ (12 ≤ i ∧ i < 16)) := by
  unfold message_header.block_type_mask
  by_cases hi : i < 16
  · interval_cases i <;> decide
  · rw [testBit_of_lt (0x0f00 ^^^ 65535) 16 i (by decide) (by omega)]
    simp; omega

theorem block_type_of_set (h : message_header) (t : Nat) (ht : t < 16) :
    (h.block_type_set t).block_type = t := by
  unfold message_header.block_type message_header.block_type_set
  apply Nat.eq_of_testBit_eq
  intro i
  have h65 : (65536 : Nat) = 2 ^ 16 := by norm_num
  simp only [h65, Nat.testBit_shiftRight, Nat.testBit_and, Nat.testBit_or,
    Nat.testBit_mod_two_pow, Nat.testBit_shiftLeft, mask_testBit, not_mask_testBit]
  by_cases hi : i < 4
  · have e1 : 8 + i - 8 = i := by omega
    have a1 : ¬ (12 ≤ 8 + i) := by omega
    have a2 : 8 + i < 16 := by omega
    have a3 : 8 + i < 12 := by omega
    simp [e1, a1, a2, a3]
  · have h1 : t.testBit i = false := testBit_of_lt t 4 i (by simpa using ht) (by omega)
    simp [h1]; omega

theorem block_type_set_frame (h : message_header) (t i : Nat) (he : h.extensions < 65536)
    (ht : t < 16) (hout : i < 8 ∨ 12 ≤ i) :
    (h.block_type_set t).extensions.testBit i = h.extensions.testBit i := by
  unfold message_header.block_type_set
  have h65 : (65536 : Nat) = 2 ^ 16 := by norm_num
  simp only [h65, Nat.testBit_and, Nat.testBit_or, Nat.testBit_mod_two_pow,
    Nat.testBit_shiftLeft, not_mask_testBit]
  by_cases h8 : i < 8
  · simp [h8]
  · have h12 : 12 ≤ i := by omega
    have h1 : t.testBit (i - 8) = false := testBit_of_lt t 4 (i - 8) (by simpa using ht) (by omega)
    by_cases h16 : i < 16
    · simp [h1]; intro _; omega
    · have h2 : h.extensions.testBit i = false :=
        testBit_of_lt h.extensions 16 i (by simpa using he) (by omega)
      simp [h1, h2]

/-- C2: after `block_type_set (t)` with `t` one of the six block types, `block_type ()`
returns `t` and every extensions bit outside bits 8-11 is as it was. -/
theorem block_type_set_get_and_frame (B : block_type) (hB : ∀ t ∈ B.enumerators, t < 16)
    (h : message_header) (he : h.extensions < 65536) (t : Nat) (ht : t ∈ B.enumerators) :
    (h.block_type_set t).block_type = t ∧
      ∀ i, (i < 8 ∨ 12 ≤ i) →
        (h.block_type_set t).extensions.testBit i = h.extensions.testBit i :=
  ⟨block_type_of_set h t (hB t ht),
    fun i hi => block_type_set_frame h t i he (hB t ht) hi⟩

theorem block_type_set_get_and_frame_witness :
    (65535 : Nat) < 65536 ∧ live_constants.block_type.state ∈ live_constants.block_type.enumerators ∧
      ((message_header.block_type_set ⟨16, 16, 13, 3, 65535⟩
          live_constants.block_type.state).block_type = live_constants.block_type.state ∧
        ∀ i, (i < 8 ∨ 12 ≤ i) →
          (message_header.block_type_set ⟨16, 16, 13, 3, 65535⟩
            live_constants.block_type.state).extensions.testBit i
            = (65535 : Nat).testBit i) :=
  ⟨by decide, by decide,
    block_type_set_get_and_frame live_constants.block_type (by decide) ⟨16, 16, 13, 3, 65535⟩
      (by decide) live_constants.block_type.state (by decide)⟩

theorem header_deserialize_short (c : constants) (s : stream) (hs : s.length < 8) :
    message_header.deserialize c s = none := by
  rcases s with _ | ⟨b0, _ | ⟨b1, _ | ⟨b2, _ | ⟨b3, _ | ⟨b4, _ | ⟨b5, _ | ⟨b6, _ | ⟨b7, s⟩⟩⟩⟩⟩⟩⟩⟩ <;>
    first
    | (simp [message_header.deserialize, read_bytes, read_uint8, read_uint16]; done)
    | (simp only [List.length_cons] at hs; omega)
  

theorem header_deserialize_magic (c : constants) (b0 b1 : Nat) (s : stream)
    (hm : (b0, b1) ≠ c.magic_number) :
    message_header.deserialize c (b0 :: b1 :: s) = none := by
  have : ¬ (b0 = c.magic_number.1 ∧ b1 = c.magic_number.2) := by
    rintro ⟨h0, h1⟩
    exact hm (Prod.ext h0 h1)
  simp [message_header.deserialize, read_bytes, this]

theorem deserialize_buffer_of_header {Block : Type} (c : constants) (X : collaborators Block)
    (p : message_parser_state Block) (buffer_a : List Nat) (header : message_header) (s : stream)
    (hsize : buffer_a.length ≤ 508)
    (hdec : message_header.deserialize c buffer_a = some (header, s))
    (hok : message_parser_state.passes_checks c header) :
    message_parser_state.deserialize_buffer c X p buffer_a
      = message_parser_state.dispatch c X { p with status := parse_status.success } s header := by
  obtain ⟨h1, h2, h3, h4⟩ := hok
  simp [message_parser_state.deserialize_buffer, message_parser_state.max_safe_udp_message_size, hsize, hdec,
    h1, h2, h3, h4]

theorem deserialize_buffer_of_header_error {Block : Type} (c : constants)
    (X : collaborators Block) (p : message_parser_state Block) (buffer_a : List Nat)
    (hsize : buffer_a.length ≤ 508) (hdec : message_header.deserialize c buffer_a = none) :
    message_parser_state.deserialize_buffer c X p buffer_a
      = { p with status := parse_status.invalid_header } := by
  simp [message_parser_state.deserialize_buffer, message_parser_state.max_safe_udp_message_size, hsize, hdec]

theorem xor_bit_ne (b i : Nat) : b ^^^ (1 <<< i) ≠ b := by
  intro h
  have := congrArg (fun x => Nat.testBit x i) h
  simp [Nat.testBit_xor, Nat.one_shiftLeft, Nat.testBit_two_pow_self] at this

/-- C9: a buffer of fewer than 8 bytes ends with status `invalid_header` and no visitor
call. -/
theorem short_buffer_invalid_header {Block : Type} (c : constants) (X : collaborators Block)
    (p : message_parser_state Block) (buffer_a : List Nat) (hlen : buffer_a.length < 8) :
    (message_parser_state.deserialize_buffer c X p buffer_a).status = parse_status.invalid_header ∧
      (message_parser_state.deserialize_buffer c X p buffer_a).visitor = p.visitor := by
  rw [deserialize_buffer_of_header_error c X p buffer_a (by omega)
    (header_deserialize_short c buffer_a hlen)]
  exact ⟨rfl, rfl⟩

theorem short_buffer_invalid_header_witness :
    [0x52, 0x43, 0x10].length < 8 ∧
      (message_parser_state.deserialize_buffer live_constants byte_collaborators
          (message_parser_state.initial Nat) [0x52, 0x43, 0x10]).status = parse_status.invalid_header ∧
      (message_parser_state.deserialize_buffer live_constants byte_collaborators
          (message_parser_state.initial Nat) [0x52, 0x43, 0x10]).visitor
        = (message_parser_state.initial Nat).visitor :=
  ⟨by decide,
    short_buffer_invalid_header live_constants byte_collaborators (message_parser_state.initial Nat)
      [0x52, 0x43, 0x10] (by decide)⟩

/-- C10: a buffer longer than 508 bytes is not decoded: whatever the parser's earlier
status and whatever the bytes, the status ends as `success` and the visitor is not called. -/
theorem oversized_buffer_noop {Block : Type} (c : constants) (X : collaborators Block)
    (p : message_parser_state Block) (buffer_a : List Nat)
    (hlen : message_parser_state.max_safe_udp_message_size < buffer_a.length) :
    message_parser_state.deserialize_buffer c X p buffer_a
      = { status := parse_status.success, visitor := p.visitor } := by
  have : ¬ buffer_a.length ≤ message_parser_state.max_safe_udp_message_size := by omega
  simp [message_parser_state.deserialize_buffer, this]

theorem oversized_buffer_noop_witness :
    message_parser_state.max_safe_udp_message_size < (List.replicate 509 0).length ∧
      message_parser_state.deserialize_buffer live_constants byte_collaborators
          { status := parse_status.invalid_header, visitor := [] } (List.replicate 509 0)
        = { status := parse_status.success, visitor := [] } :=
  ⟨by rw [List.length_replicate]; decide,
    oversized_buffer_noop live_constants byte_collaborators
      { status := parse_status.invalid_header, visitor := [] } (List.replicate 509 0)
      (by rw [List.length_replicate]; decide)⟩

/-- C8: a header that decodes and passes the version, magic and network checks but whose
type is none of keepalive, publish, confirm_req, confirm_ack, node_id_handshake ends with
status `invalid_message_type` and no visitor call, whatever the payload. -/
theorem other_type_invalid_message_type {Block : Type} (c : constants) (X : collaborators Block)
    (p : message_parser_state Block) (buffer_a : List Nat) (header : message_header) (s : stream)
    (hsize : buffer_a.length ≤ 508)
    (hdec : message_header.deserialize c buffer_a = some (header, s))
    (hok : message_parser_state.passes_checks c header)
    (htype : header.type ∉ [c.message_type.keepalive, c.message_type.publish,
      c.message_type.confirm_req, c.message_type.confirm_ack, c.message_type.node_id_handshake]) :
    (message_parser_state.deserialize_buffer c X p buffer_a).status = parse_status.invalid_message_type ∧
      (message_parser_state.deserialize_buffer c X p buffer_a).visitor = p.visitor := by
  rw [deserialize_buffer_of_header c X p buffer_a header s hsize hdec hok]
  simp only [List.mem_cons, List.mem_singleton, not_or, List.not_mem_nil, or_false] at htype
  obtain ⟨h1, h2, h3, h4, h5⟩ := htype
  simp [message_parser_state.dispatch, h1, h2, h3, h4, h5]

theorem other_type_invalid_message_type_witness :
    ([0x52, 0x43, 0x10, 0x10, 0x0d, 6, 0, 0, 1, 2, 3] : List Nat).length ≤ 508 ∧
      message_header.deserialize live_constants [0x52, 0x43, 0x10, 0x10, 0x0d, 6, 0, 0, 1, 2, 3]
        = some (⟨16, 16, 13, 6, 0⟩, [1, 2, 3]) ∧
      (message_parser_state.deserialize_buffer live_constants byte_collaborators
          (message_parser_state.initial Nat) [0x52, 0x43, 0x10, 0x10, 0x0d, 6, 0, 0, 1, 2, 3]).status
        = parse_status.invalid_message_type ∧
      (message_parser_state.deserialize_buffer live_constants byte_collaborators
          (message_parser_state.initial Nat) [0x52, 0x43, 0x10, 0x10, 0x0d, 6, 0, 0, 1, 2, 3]).visitor
        = [] :=
  ⟨by decide, by decide,
    other_type_invalid_message_type live_constants byte_collaborators (message_parser_state.initial Nat)
      [0x52, 0x43, 0x10, 0x10, 0x0d, 6, 0, 0, 1, 2, 3] ⟨16, 16, 13, 6, 0⟩ [1, 2, 3]
      (by decide) (by decide) (by decide) (by decide)⟩

/-- C3, as the code has it: a buffer whose two magic bytes are the magic number with one
bit flipped (in either byte) ends with status `invalid_header`, whatever follows, and the
visitor is not called. -/
theorem flipped_magic_invalid_header {Block : Type} (c : constants) (X : collaborators Block)
    (p : message_parser_state Block) (m0 m1 i : Nat) (rest : List Nat)
    (hflip : (m0 = c.magic_number.1 ^^^ (1 <<< i) ∧ m1 = c.magic_number.2) ∨
      (m0 = c.magic_number.1 ∧ m1 = c.magic_number.2 ^^^ (1 <<< i)))
    (hsize : (m0 :: m1 :: rest).length ≤ 508) :
    (message_parser_state.deserialize_buffer c X p (m0 :: m1 :: rest)).status
        = parse_status.invalid_header ∧
      (message_parser_state.deserialize_buffer c X p (m0 :: m1 :: rest)).visitor = p.visitor := by
  have hm : (m0, m1) ≠ c.magic_number := by
    intro h
    have h0 : m0 = c.magic_number.1 := congrArg Prod.fst h
    have h1 : m1 = c.magic_number.2 := congrArg Prod.snd h
    rcases hflip with ⟨hf, _⟩ | ⟨_, hf⟩
    · exact xor_bit_ne _ i (hf.symm.trans h0)
    · exact xor_bit_ne _ i (hf.symm.trans h1)
  rw [deserialize_buffer_of_header_error c X p _ hsize (header_deserialize_magic c m0 m1 rest hm)]
  exact ⟨rfl, rfl⟩

theorem flipped_magic_invalid_header_witness :
    ((0x53 = live_constants.magic_number.1 ^^^ (1 <<< 0) ∧ 0x43 = live_constants.magic_number.2) ∨
      (0x53 = live_constants.magic_number.1 ∧ 0x43 = live_constants.magic_number.2 ^^^ (1 <<< 0))) ∧
      (message_parser_state.deserialize_buffer live_constants byte_collaborators
          (message_parser_state.initial Nat) (0x53 :: 0x43 :: [0x10, 0x10, 0x0d, 3, 0, 0, 7])).status
        = parse_status.invalid_header ∧
      (message_parser_state.deserialize_buffer live_constants byte_collaborators
          (message_parser_state.initial Nat) (0x53 :: 0x43 :: [0x10, 0x10, 0x0d, 3, 0, 0, 7])).visitor
        = [] :=
  ⟨by decide,
    flipped_magic_invalid_header live_constants byte_collaborators (message_parser_state.initial Nat)
      0x53 0x43 0 [0x10, 0x10, 0x0d, 3, 0, 0, 7] (by decide) (by decide)⟩

/-- C3, as stated, fails on the code: the publish message `52 43 10 10 0d 03 00 00 07` is
accepted, and with bit 0 of its first magic byte flipped the status is `invalid_header`,
not `invalid_magic`. -/
theorem flipped_magic_status_counterexample :
    (message_parser_state.deserialize_buffer live_constants byte_collaborators
        (message_parser_state.initial Nat) [0x52, 0x43, 0x10, 0x10, 0x0d, 3, 0, 0, 7]).status
      = parse_status.success ∧
    (0x53 : Nat) = 0x52 ^^^ (1 <<< 0) ∧
    (message_parser_state.deserialize_buffer live_constants byte_collaborators
        (message_parser_state.initial Nat) [0x53, 0x43, 0x10, 0x10, 0x0d, 3, 0, 0, 7]).status
      = parse_status.invalid_header ∧
    (message_parser_state.deserialize_buffer live_constants byte_collaborators
        (message_parser_state.initial Nat) [0x53, 0x43, 0x10, 0x10, 0x0d, 3, 0, 0, 7]).status
      ≠ parse_status.invalid_magic := by
  decide

theorem deserialize_keepalive_calls {Block : Type} (p : message_parser_state Block) (s : stream)
    (h : message_header) (hp : p.status = parse_status.success) :
    (message_parser_state.deserialize_keepalive p s h).visitor = p.visitor ∨
      ∃ call, (message_parser_state.deserialize_keepalive p s h).visitor = p.visitor ++ [call] ∧
        (message_parser_state.deserialize_keepalive p s h).status = parse_status.success := by
  unfold message_parser_state.deserialize_keepalive
  cases keepalive.deserialize h s with
  | none => exact Or.inl rfl
  | some r =>
    by_cases he : message_parser_state.at_end r.2 = true
    · exact Or.inr ⟨visitor_call.keepalive r.1, by simp [he, hp]⟩
    · exact Or.inl (by simp [he])

theorem deserialize_publish_calls {Block : Type} (X : collaborators Block)
    (p : message_parser_state Block) (s : stream) (h : message_header)
    (hp : p.status = parse_status.success) :
    (message_parser_state.deserialize_publish X p s h).visitor = p.visitor ∨
      ∃ call, (message_parser_state.deserialize_publish X p s h).visitor = p.visitor ++ [call] ∧
        (message_parser_state.deserialize_publish X p s h).status = parse_status.success := by
  unfold message_parser_state.deserialize_publish
  cases publish.deserialize X h s with
  | none => exact Or.inl rfl
  | some r =>
    by_cases he : message_parser_state.at_end r.2 = true
    · by_cases hw : X.work_validate r.1.block = true
      · exact Or.inl (by simp [he, hw])
      · exact Or.inr ⟨visitor_call.publish r.1, by simp [he, hw, hp]⟩
    · exact Or.inl (by simp [he])

theorem deserialize_confirm_req_calls {Block : Type} (X : collaborators Block)
    (p : message_parser_state Block) (s : stream) (h : message_header)
    (hp : p.status = parse_status.success) :
    (message_parser_state.deserialize_confirm_req X p s h).visitor = p.visitor ∨
      ∃ call, (message_parser_state.deserialize_confirm_req X p s h).visitor = p.visitor ++ [call] ∧
        (message_parser_state.deserialize_confirm_req X p s h).status = parse_status.success := by
  unfold message_parser_state.deserialize_confirm_req
  cases confirm_req.deserialize X h s with
  | none => exact Or.inl rfl
  | some r =>
    by_cases he : message_parser_state.at_end r.2 = true
    · by_cases hw : X.work_validate r.1.block = true
      · exact Or.inl (by simp [he, hw])
      · exact Or.inr ⟨visitor_call.confirm_req r.1, by simp [he, hw, hp]⟩
    · exact Or.inl (by simp [he])

theorem deserialize_confirm_ack_calls {Block : Type} (X : collaborators Block)
    (p : message_parser_state Block) (s : stream) (h : message_header) :
    (message_parser_state.deserialize_confirm_ack X p s h).visitor = p.visitor ∨
      ∃ call, (message_parser_state.deserialize_confirm_ack X p s h).visitor = p.visitor ++ [call] ∧
        (message_parser_state.deserialize_confirm_ack X p s h).status = parse_status.success := by
  unfold message_parser_state.deserialize_confirm_ack
  cases confirm_ack.deserialize X h s with
  | none => exact Or.inl rfl
  | some r =>
    by_cases he : message_parser_state.at_end r.2 = true
    · by_cases hw : message_parser_state.confirm_ack_work X p.status r.1.vote.blocks
          = parse_status.success
      · exact Or.inr ⟨visitor_call.confirm_ack r.1, by simp [he, hw]⟩
      · exact Or.inl (by simp [he, hw])
    · exact Or.inl (by simp [he])

theorem deserialize_node_id_handshake_calls {Block : Type} (p : message_parser_state Block)
    (s : stream) (h : message_header) (hp : p.status = parse_status.success) :
    (message_parser_state.deserialize_node_id_handshake p s h).visitor = p.visitor ∨
      ∃ call, (message_parser_state.deserialize_node_id_handshake p s h).visitor = p.visitor ++ [call] ∧
        (message_parser_state.deserialize_node_id_handshake p s h).status = parse_status.success := by
  unfold message_parser_state.deserialize_node_id_handshake
  cases node_id_handshake.deserialize h s with
  | none => exact Or.inl rfl
  | some r =>
    by_cases he : message_parser_state.at_end r.2 = true
    · exact Or.inr ⟨visitor_call.node_id_handshake r.1, by simp [he, hp]⟩
    · exact Or.inl (by simp [he])

theorem dispatch_calls {Block : Type} (c : constants) (X : collaborators Block)
    (p : message_parser_state Block) (s : stream) (h : message_header)
    (hp : p.status = parse_status.success) :
    (message_parser_state.dispatch c X p s h).visitor = p.visitor ∨
      ∃ call, (message_parser_state.dispatch c X p s h).visitor = p.visitor ++ [call] ∧
        (message_parser_state.dispatch c X p s h).status = parse_status.success := by
  unfold message_parser_state.dispatch
  split_ifs
  · exact deserialize_keepalive_calls p s h hp
  · exact deserialize_publish_calls X p s h hp
  · exact deserialize_confirm_req_calls X p s h hp
  · exact deserialize_confirm_ack_calls X p s h
  · exact deserialize_node_id_handshake_calls p s h hp
  · exact Or.inl rfl

/-- C7: one call of `deserialize_buffer`, on any buffer and with any block decoder, vote
decoder, uniquer and work check, either leaves the visitor untouched or makes exactly one
visitor call and then ends with status `success`. -/
theorem at_most_one_visitor_call {Block : Type} (c : constants) (X : collaborators Block)
    (p : message_parser_state Block) (buffer_a : List Nat) :
    (message_parser_state.deserialize_buffer c X p buffer_a).visitor = p.visitor ∨
      ∃ call, (message_parser_state.deserialize_buffer c X p buffer_a).visitor = p.visitor ++ [call] ∧
        (message_parser_state.deserialize_buffer c X p buffer_a).status = parse_status.success := by
  unfold message_parser_state.deserialize_buffer
  simp only []
  split_ifs
  · cases message_header.deserialize c buffer_a with
    | none => exact Or.inl rfl
    | some r =>
      simp only []
      split_ifs
      · exact Or.inl rfl
      · exact Or.inl rfl
      · exact Or.inl rfl
      · exact Or.inl rfl
      · exact dispatch_calls c X { p with status := parse_status.success } r.2 r.1 rfl
  · exact Or.inl rfl

theorem read_bytes_append (n : Nat) (l rest : List Nat) (hl : l.length = n) :
    read_bytes n (l ++ rest) = some (l, rest) := by
  subst hl
  simp [read_bytes]

theorem read_bytes_of_le (n : Nat) (s : stream) (h : n ≤ s.length) :
    read_bytes n s = some (s.take n, s.drop n) := by
  simp [read_bytes, h]

theorem read_bytes_of_lt (n : Nat) (s : stream) (h : s.length < n) : read_bytes n s = none := by
  have : ¬ n ≤ s.length := by omega
  simp [read_bytes, this]

theorem read_uint16_of_le (s : stream) (h : 2 ≤ s.length) :
    ∃ v, read_uint16 s = some (v, s.drop 2) := by
  rcases s with _ | ⟨b0, _ | ⟨b1, s⟩⟩
  · simp at h
  · simp at h
  · exact ⟨b0 + 256 * b1, rfl⟩

theorem read_uint16_of_lt (s : stream) (h : s.length < 2) : read_uint16 s = none := by
  rcases s with _ | ⟨b0, _ | ⟨b1, s⟩⟩
  · rfl
  · rfl
  · simp only [List.length_cons] at h; omega

theorem at_end_iff (s : stream) : message_parser_state.at_end s = true ↔ s = [] := by
  cases s <;> simp [message_parser_state.at_end, read_uint8]

theorem deserialize_peers_of_le (n : Nat) (s : stream) (h : 18 * n ≤ s.length) :
    ∃ peers, keepalive.deserialize_peers n s = some (peers, s.drop (18 * n)) := by
  induction n generalizing s with
  | zero => exact ⟨[], by simp [keepalive.deserialize_peers]⟩
  | succ n ih =>
    have h16 : 16 ≤ s.length := by omega
    obtain ⟨v, hv⟩ := read_uint16_of_le (s.drop 16) (by simp; omega)
    obtain ⟨peers, hp⟩ := ih ((s.drop 16).drop 2) (by simp; omega)
    refine ⟨{ address := s.take 16, port := v } :: peers, ?_⟩
    simp only [keepalive.deserialize_peers, read_bytes_of_le 16 s h16, hv, hp]
    simp only [List.drop_drop]
    congr 3
    omega

theorem deserialize_peers_of_lt (n : Nat) (s : stream) (h : s.length < 18 * n) :
    keepalive.deserialize_peers n s = none := by
  induction n generalizing s with
  | zero => simp at h
  | succ n ih =>
    by_cases h16 : 16 ≤ s.length
    · by_cases h18 : 2 ≤ (s.drop 16).length
      · obtain ⟨v, hv⟩ := read_uint16_of_le (s.drop 16) h18
        have hn := ih ((s.drop 16).drop 2) (by simp at h18 ⊢; omega)
        simp only [keepalive.deserialize_peers, read_bytes_of_le 16 s h16, hv, hn]
      · simp only [keepalive.deserialize_peers, read_bytes_of_le 16 s h16,
          read_uint16_of_lt (s.drop 16) (by omega)]
    · simp only [keepalive.deserialize_peers, read_bytes_of_lt 16 s (by omega)]

theorem deserialize_keepalive_of_exact {Block : Type} (p : message_parser_state Block) (s : stream)
    (h : message_header) (hs : s.length = 144) :
    ∃ incoming, message_parser_state.deserialize_keepalive p s h
      = { p with visitor := p.visitor ++ [visitor_call.keepalive incoming] } := by
  obtain ⟨peers, hp⟩ := deserialize_peers_of_le 8 s (by omega)
  have hd : s.drop (18 * 8) = [] := by
    apply List.drop_eq_nil_of_le
    omega
  refine ⟨{ header := h, peers := peers }, ?_⟩
  simp [message_parser_state.deserialize_keepalive, keepalive.deserialize, hp, hd,
    message_parser_state.at_end, read_uint8]

theorem deserialize_keepalive_of_ne {Block : Type} (p : message_parser_state Block) (s : stream)
    (h : message_header) (hs : s.length ≠ 144) :
    message_parser_state.deserialize_keepalive p s h
      = { p with status := parse_status.invalid_keepalive_message } := by
  by_cases hlt : s.length < 18 * 8
  · simp [message_parser_state.deserialize_keepalive, keepalive.deserialize,
      deserialize_peers_of_lt 8 s hlt]
  · obtain ⟨peers, hp⟩ := deserialize_peers_of_le 8 s (by omega)
    have hd : message_parser_state.at_end (s.drop (18 * 8)) = false := by
      rw [Bool.eq_false_iff, Ne, at_end_iff]
      intro h0
      have := congrArg List.length h0
      simp at this
      omega
    simp [message_parser_state.deserialize_keepalive, keepalive.deserialize, hp, hd]

theorem serialize_peers_length (peers : List endpoint)
    (h : ∀ e ∈ peers, e.address.length = 16) :
    (keepalive.serialize_peers peers).length = 18 * peers.length := by
  induction peers with
  | nil => rfl
  | cons e rest ih =>
    have he := h e (List.mem_cons_self _ _)
    have hr := ih (fun x hx => h x (List.mem_cons_of_mem _ hx))
    simp [keepalive.serialize_peers, write_uint16, he, hr]
    omega

/-- C4: with a header that decodes, `version_using` one below the network's minimum gives
`outdated_version` and no visitor call whatever the type and payload; and a keepalive with
`version_using` equal to that minimum, valid magic and network and a 144-byte payload gives
`success` and one call of `visitor.keepalive`.  On the beta network the minimum is
`protocol_version_reasonable_min`, taken to be at least `protocol_version_min`. -/
theorem version_gate {Block : Type} (c : constants) (X : collaborators Block)
    (p : message_parser_state Block) (buffer_a : List Nat) (header : message_header) (s : stream)
    (hsize : buffer_a.length ≤ 508)
    (hdec : message_header.deserialize c buffer_a = some (header, s)) :
    (header.version_using + 1 = minimum_version c →
      (message_parser_state.deserialize_buffer c X p buffer_a).status = parse_status.outdated_version ∧
        (message_parser_state.deserialize_buffer c X p buffer_a).visitor = p.visitor) ∧
    (header.version_using = minimum_version c →
      (c.nano_network = nano_networks.nano_beta_network →
        c.protocol_version_min ≤ c.protocol_version_reasonable_min) →
      c.valid_magic header = true → c.valid_network header = true →
      header.type = c.message_type.keepalive → s.length = 144 →
      (message_parser_state.deserialize_buffer c X p buffer_a).status = parse_status.success ∧
        ∃ incoming, (message_parser_state.deserialize_buffer c X p buffer_a).visitor
          = p.visitor ++ [visitor_call.keepalive incoming]) := by
  constructor
  · intro hv
    unfold minimum_version at hv
    by_cases hb : c.nano_network = nano_networks.nano_beta_network
    · have h1 : header.version_using < c.protocol_version_reasonable_min := by
        simp only [hb, if_true] at hv; omega
      simp [message_parser_state.deserialize_buffer, message_parser_state.max_safe_udp_message_size, hsize,
        hdec, hb, h1]
    · have h1 : header.version_using < c.protocol_version_min := by
        simp only [hb, if_false] at hv; omega
      simp [message_parser_state.deserialize_buffer, message_parser_state.max_safe_udp_message_size, hsize,
        hdec, hb, h1]
  · intro hv hstrict hmagic hnet htype hlen
    have hok : message_parser_state.passes_checks c header := by
      unfold minimum_version at hv
      refine ⟨?_, ?_, hmagic, hnet⟩
      · rintro ⟨hb, hlt⟩
        simp only [hb, if_true] at hv
        omega
      · by_cases hb : c.nano_network = nano_networks.nano_beta_network
        · have := hstrict hb
          simp only [hb, if_true] at hv
          omega
        · simp only [hb, if_false] at hv
          omega
    rw [deserialize_buffer_of_header c X p buffer_a header s hsize hdec hok]
    obtain ⟨incoming, hi⟩ :=
      deserialize_keepalive_of_exact { p with status := parse_status.success } s header hlen
    have hd : message_parser_state.dispatch c X { p with status := parse_status.success } s header
        = message_parser_state.deserialize_keepalive { p with status := parse_status.success } s
            header := by
      simp [message_parser_state.dispatch, htype]
    rw [hd, hi]
    exact ⟨rfl, incoming, rfl⟩

theorem version_gate_witness :
    (message_parser_state.deserialize_buffer live_constants byte_collaborators
        (message_parser_state.initial Nat) ([0x52, 0x43, 0x10, 0x0c, 0x0d, 3, 0, 0] ++ [7])).status
      = parse_status.outdated_version ∧
    (message_parser_state.deserialize_buffer live_constants byte_collaborators
        (message_parser_state.initial Nat) ([0x52, 0x43, 0x10, 0x0c, 0x0d, 3, 0, 0] ++ [7])).visitor
      = [] ∧
    (message_parser_state.deserialize_buffer live_constants byte_collaborators
        (message_parser_state.initial Nat)
        ([0x52, 0x43, 0x10, 0x0d, 0x0d, 2, 0, 0] ++ List.replicate 144 0)).status
      = parse_status.success ∧
    ∃ incoming, (message_parser_state.deserialize_buffer live_constants byte_collaborators
        (message_parser_state.initial Nat)
        ([0x52, 0x43, 0x10, 0x0d, 0x0d, 2, 0, 0] ++ List.replicate 144 0)).visitor
      = [] ++ [visitor_call.keepalive incoming] :=
  ⟨((version_gate live_constants byte_collaborators (message_parser_state.initial Nat)
        ([0x52, 0x43, 0x10, 0x0c, 0x0d, 3, 0, 0] ++ [7]) ⟨0x10, 0x0c, 0x0d, 3, 0⟩ [7]
        (by decide) (by decide)).1 (by decide)).1,
    ((version_gate live_constants byte_collaborators (message_parser_state.initial Nat)
        ([0x52, 0x43, 0x10, 0x0c, 0x0d, 3, 0, 0] ++ [7]) ⟨0x10, 0x0c, 0x0d, 3, 0⟩ [7]
        (by decide) (by decide)).1 (by decide)).2,
    (version_gate live_constants byte_collaborators (message_parser_state.initial Nat)
        ([0x52, 0x43, 0x10, 0x0d, 0x0d, 2, 0, 0] ++ List.replicate 144 0)
        ⟨0x10, 0x0d, 0x0d, 2, 0⟩ (List.replicate 144 0)
        (by rw [List.length_append, List.length_replicate]; decide)
        (by simp [message_header.deserialize, read_bytes, read_uint8, read_uint16,
          live_constants])).2
        (by decide) (by decide) (by decide) (by decide) (by decide)
        (List.length_replicate _ _)⟩

/-- C5: for a publish (respectively confirm_req) message whose header passes the checks and
whose payload the block decoder accepts and consumes completely: when the work check rejects
the block the status is `insufficient_work` and the visitor is not called; when it accepts,
the status is `success` and the visitor gets exactly one `publish` (respectively
`confirm_req`) call, carrying the decoded block. -/
theorem work_gate {Block : Type} (c : constants) (X : collaborators Block)
    (p : message_parser_state Block) (buffer_a : List Nat) (header : message_header) (s : stream)
    (block : Block) (henum : c.message_type.enumerators.Nodup)
    (hsize : buffer_a.length ≤ 508)
    (hdec : message_header.deserialize c buffer_a = some (header, s))
    (hok : message_parser_state.passes_checks c header)
    (hblock : X.deserialize_block s header.block_type = some (block, [])) :
    (header.type = c.message_type.publish →
      (X.work_validate block = true →
        (message_parser_state.deserialize_buffer c X p buffer_a).status
            = parse_status.insufficient_work ∧
          (message_parser_state.deserialize_buffer c X p buffer_a).visitor = p.visitor) ∧
      (X.work_validate block = false →
        (message_parser_state.deserialize_buffer c X p buffer_a).status = parse_status.success ∧
          (message_parser_state.deserialize_buffer c X p buffer_a).visitor
            = p.visitor ++ [visitor_call.publish { header := header, block := block }])) ∧
    (header.type = c.message_type.confirm_req →
      (X.work_validate block = true →
        (message_parser_state.deserialize_buffer c X p buffer_a).status
            = parse_status.insufficient_work ∧
          (message_parser_state.deserialize_buffer c X p buffer_a).visitor = p.visitor) ∧
      (X.work_validate block = false →
        (message_parser_state.deserialize_buffer c X p buffer_a).status = parse_status.success ∧
          (message_parser_state.deserialize_buffer c X p buffer_a).visitor
            = p.visitor ++ [visitor_call.confirm_req { header := header, block := block }])) := by
  rw [deserialize_buffer_of_header c X p buffer_a header s hsize hdec hok]
  simp only [message_type.enumerators, List.nodup_cons, List.mem_cons, List.mem_singleton,
    not_or, List.not_mem_nil, not_false_eq_true, List.nodup_nil, and_true] at henum
  obtain ⟨⟨hkp, hkr, -⟩, ⟨hpr, -⟩, -⟩ := henum
  constructor
  · intro htype
    have hne : ¬ c.message_type.publish = c.message_type.keepalive := fun h => hkp h.symm
    constructor <;> intro hw <;>
      simp [message_parser_state.dispatch, htype, hne, message_parser_state.deserialize_publish,
        publish.deserialize, hblock, message_parser_state.at_end, read_uint8, hw]
  · intro htype
    have hne1 : ¬ c.message_type.confirm_req = c.message_type.keepalive := fun h => hkr h.symm
    have hne2 : ¬ c.message_type.confirm_req = c.message_type.publish := fun h => hpr h.symm
    constructor <;> intro hw <;>
      simp [message_parser_state.dispatch, htype, hne1, hne2, message_parser_state.deserialize_confirm_req,
        confirm_req.deserialize, hblock, message_parser_state.at_end, read_uint8, hw]

theorem work_gate_witness :
    ((message_parser_state.deserialize_buffer live_constants byte_collaborators
          (message_parser_state.initial Nat) [0x52, 0x43, 0x10, 0x10, 0x0d, 3, 0, 2, 0]).status
        = parse_status.insufficient_work ∧
      (message_parser_state.deserialize_buffer live_constants byte_collaborators
          (message_parser_state.initial Nat) [0x52, 0x43, 0x10, 0x10, 0x0d, 3, 0, 2, 0]).visitor
        = []) ∧
    ((message_parser_state.deserialize_buffer live_constants byte_collaborators
          (message_parser_state.initial Nat) [0x52, 0x43, 0x10, 0x10, 0x0d, 4, 0, 2, 9]).status
        = parse_status.success ∧
      (message_parser_state.deserialize_buffer live_constants byte_collaborators
          (message_parser_state.initial Nat) [0x52, 0x43, 0x10, 0x10, 0x0d, 4, 0, 2, 9]).visitor
        = [] ++ [visitor_call.confirm_req { header := ⟨0x10, 0x10, 0x0d, 4, 0x200⟩, block := 9 }]) :=
  ⟨((work_gate live_constants byte_collaborators (message_parser_state.initial Nat)
        [0x52, 0x43, 0x10, 0x10, 0x0d, 3, 0, 2, 0] ⟨0x10, 0x10, 0x0d, 3, 0x200⟩ [0] 0
        (by decide) (by decide) (by decide) (by decide) (by decide)).1 (by decide)).1
      (by decide),
    ((work_gate live_constants byte_collaborators (message_parser_state.initial Nat)
        [0x52, 0x43, 0x10, 0x10, 0x0d, 4, 0, 2, 9] ⟨0x10, 0x10, 0x0d, 4, 0x200⟩ [9] 9
        (by decide) (by decide) (by decide) (by decide) (by decide)).2 (by decide)).2
      (by decide)⟩

theorem node_id_handshake_deserialize_serialized (m : node_id_handshake)
    (hq : node_id_handshake.is_query_flag m.header = m.query.isSome)
    (hr : node_id_handshake.is_response_flag m.header = m.response.isSome)
    (hql : ∀ q, m.query = some q → q.length = 32)
    (hrl : ∀ r, m.response = some r → r.1.length = 32 ∧ r.2.length = 64) (rest : stream) :
    node_id_handshake.deserialize m.header
        ((match m.query with
            | some q => q
            | none => [])
          ++ (match m.response with
            | some r => r.1 ++ r.2
            | none => [])
          ++ rest)
      = some (m, rest) := by
  obtain ⟨h, q, r⟩ := m
  cases q with
  | none =>
    cases r with
    | none =>
      simp only [Option.isSome_none] at hq hr
      simp [node_id_handshake.deserialize, node_id_handshake.deserialize_query, hq, hr]
    | some r =>
      simp only [Option.isSome_none, Option.isSome_some] at hq hr
      obtain ⟨h1, h2⟩ := hrl r rfl
      simp [node_id_handshake.deserialize, node_id_handshake.deserialize_query, hq, hr,
        List.append_assoc, read_bytes_append 32 r.1 _ h1, read_bytes_append 64 r.2 _ h2]
  | some q =>
    have h0 := hql q rfl
    cases r with
    | none =>
      simp only [Option.isSome_none, Option.isSome_some] at hq hr
      simp [node_id_handshake.deserialize, node_id_handshake.deserialize_query, hq, hr,
        List.append_assoc, read_bytes_append 32 q _ h0]
    | some r =>
      simp only [Option.isSome_some] at hq hr
      obtain ⟨h1, h2⟩ := hrl r rfl
      simp [node_id_handshake.deserialize, node_id_handshake.deserialize_query, hq, hr,
        List.append_assoc, read_bytes_append 32 q _ h0, read_bytes_append 32 r.1 _ h1,
        read_bytes_append 64 r.2 _ h2]

theorem node_id_handshake_payload_length (m : node_id_handshake)
    (hql : ∀ q, m.query = some q → q.length = 32)
    (hrl : ∀ r, m.response = some r → r.1.length = 32 ∧ r.2.length = 64) :
    ((match m.query with
        | some q => q
        | none => [])
      ++ (match m.response with
        | some r => r.1 ++ r.2
        | none => [])).length
      = (if m.query.isSome then 32 else 0) + (if m.response.isSome then 96 else 0) := by
  obtain ⟨h, q, r⟩ := m
  cases q with
  | none =>
    cases r with
    | none => simp
    | some r =>
      obtain ⟨h1, h2⟩ := hrl r rfl
      simp [h1, h2]
  | some q =>
    have h0 := hql q rfl
    cases r with
    | none => simp [h0]
    | some r =>
      obtain ⟨h1, h2⟩ := hrl r rfl
      simp [h0, h1, h2]

/-- C6: a serialized keepalive, and a serialized node_id_handshake in any of the four
query/response combinations, followed by one extra byte, ends with the status
`invalid_keepalive_message` (respectively `invalid_node_id_handshake_message`), and the
visitor is not called. -/
theorem trailing_byte_rejected {Block : Type} (c : constants) (X : collaborators Block)
    (p : message_parser_state Block) (b : Nat) (henum : c.message_type.enumerators.Nodup) :
    (∀ k : keepalive, keepalive.wf c k → message_parser_state.passes_checks c k.header →
      (message_parser_state.deserialize_buffer c X p (keepalive.serialize c k ++ [b])).status
          = parse_status.invalid_keepalive_message ∧
        (message_parser_state.deserialize_buffer c X p (keepalive.serialize c k ++ [b])).visitor
          = p.visitor) ∧
    (∀ m : node_id_handshake, node_id_handshake.wf c m →
      message_parser_state.passes_checks c m.header →
      (message_parser_state.deserialize_buffer c X p (node_id_handshake.serialize c m ++ [b])).status
          = parse_status.invalid_node_id_handshake_message ∧
        (message_parser_state.deserialize_buffer c X p (node_id_handshake.serialize c m ++ [b])).visitor
          = p.visitor) := by
  constructor
  · rintro k ⟨htype, hext, hlen, haddr⟩ hok
    have hpl : (keepalive.serialize_peers k.peers).length = 144 := by
      rw [serialize_peers_length k.peers haddr, hlen]
    obtain ⟨h8, hdec⟩ := header_serialize_deserialize c k.header (keepalive.serialize_peers k.peers ++ [b]) hext
    have hbuf : keepalive.serialize c k ++ [b]
        = message_header.serialize c k.header ++ (keepalive.serialize_peers k.peers ++ [b]) := by
      simp [keepalive.serialize]
    rw [hbuf, deserialize_buffer_of_header c X p _ k.header _
      (by simp [h8, hpl]) hdec hok]
    have hd : message_parser_state.dispatch c X { p with status := parse_status.success }
        (keepalive.serialize_peers k.peers ++ [b]) k.header
        = message_parser_state.deserialize_keepalive { p with status := parse_status.success }
            (keepalive.serialize_peers k.peers ++ [b]) k.header := by
      simp [message_parser_state.dispatch, htype]
    rw [hd, deserialize_keepalive_of_ne _ _ _ (by simp [hpl])]
    exact ⟨rfl, rfl⟩
  · rintro m ⟨htype, hext, hq, hr, hql, hrl⟩ hok
    have hpl := node_id_handshake_payload_length m hql hrl
    have hds := node_id_handshake_deserialize_serialized m hq hr hql hrl [b]
    obtain ⟨h8, hdec⟩ := header_serialize_deserialize c m.header
      ((match m.query with
          | some q => q
          | none => [])
        ++ (match m.response with
          | some r => r.1 ++ r.2
          | none => [])
        ++ [b]) hext
    have hbuf : node_id_handshake.serialize c m ++ [b]
        = message_header.serialize c m.header ++
          ((match m.query with
              | some q => q
              | none => [])
            ++ (match m.response with
              | some r => r.1 ++ r.2
              | none => [])
            ++ [b]) := by
      simp [node_id_handshake.serialize]
    have hsz : (message_header.serialize c m.header ++
          ((match m.query with
              | some q => q
              | none => [])
            ++ (match m.response with
              | some r => r.1 ++ r.2
              | none => [])
            ++ [b])).length ≤ 508 := by
      rw [List.length_append, List.length_append, h8, hpl]
      split_ifs <;> simp
    rw [hbuf, deserialize_buffer_of_header c X p _ m.header _ hsz hdec hok]
    simp only [message_type.enumerators, List.nodup_cons, List.mem_cons, List.mem_singleton,
      not_or, List.not_mem_nil, not_false_eq_true, List.nodup_nil, and_true] at henum
    obtain ⟨⟨-, -, -, -, -, -, h1, -⟩, ⟨-, -, -, -, -, h2, -⟩, ⟨-, -, -, -, h3, -⟩,
      ⟨-, -, -, h4, -⟩, -⟩ := henum
    have n1 : ¬ c.message_type.node_id_handshake = c.message_type.keepalive := fun h => h1 h.symm
    have n2 : ¬ c.message_type.node_id_handshake = c.message_type.publish := fun h => h2 h.symm
    have n3 : ¬ c.message_type.node_id_handshake = c.message_type.confirm_req :=
      fun h => h3 h.symm
    have n4 : ¬ c.message_type.node_id_handshake = c.message_type.confirm_ack :=
      fun h => h4 h.symm
    have hd : ∀ s : stream,
        message_parser_state.dispatch c X { p with status := parse_status.success } s m.header
          = message_parser_state.deserialize_node_id_handshake
              { p with status := parse_status.success } s m.header := by
      intro s
      simp [message_parser_state.dispatch, htype, n1, n2, n3, n4]
    rw [hd]
    simp only [message_parser_state.deserialize_node_id_handshake, hds]
    simp [message_parser_state.at_end, read_uint8]

theorem trailing_byte_rejected_witness :
    ((message_parser_state.deserialize_buffer live_constants byte_collaborators
          (message_parser_state.initial Nat)
          (keepalive.serialize live_constants (keepalive.mk_default live_constants)
            ++ [0xff])).status
        = parse_status.invalid_keepalive_message ∧
      (message_parser_state.deserialize_buffer live_constants byte_collaborators
          (message_parser_state.initial Nat)
          (keepalive.serialize live_constants (keepalive.mk_default live_constants)
            ++ [0xff])).visitor
        = []) ∧
    ((message_parser_state.deserialize_buffer live_constants byte_collaborators
          (message_parser_state.initial Nat)
          (node_id_handshake.serialize live_constants
            (node_id_handshake.mk_fields live_constants (some (List.replicate 32 1)) none)
            ++ [0xff])).status
        = parse_status.invalid_node_id_handshake_message ∧
      (message_parser_state.deserialize_buffer live_constants byte_collaborators
          (message_parser_state.initial Nat)
          (node_id_handshake.serialize live_constants
            (node_id_handshake.mk_fields live_constants (some (List.replicate 32 1)) none)
            ++ [0xff])).visitor
        = []) :=
  ⟨(trailing_byte_rejected live_constants byte_collaborators (message_parser_state.initial Nat) 0xff
        (by decide)).1 (keepalive.mk_default live_constants)
      ⟨rfl, by decide, rfl, by decide⟩ (by decide),
    (trailing_byte_rejected live_constants byte_collaborators (message_parser_state.initial Nat) 0xff
        (by decide)).2
      (node_id_handshake.mk_fields live_constants (some (List.replicate 32 1)) none)
      ⟨rfl, by decide, rfl, rfl, by intro q hq; cases hq; rfl, by intro r hr; cases hr⟩
      (by decide)⟩

theorem node_id_handshake_mk_fields_wf (c : constants) (query : Option (List Nat))
    (response : Option (List Nat × List Nat)) (hq : ∀ q, query = some q → q.length = 32)
    (hr : ∀ r, response = some r → r.1.length = 32 ∧ r.2.length = 64) :
    node_id_handshake.wf c (node_id_handshake.mk_fields c query response) := by
  cases query <;> cases response <;>
    refine ⟨rfl, ?_, ?_, ?_, hq, hr⟩ <;>
    simp [node_id_handshake.mk_fields, message_header.mk_type, node_id_handshake.set_query_flag,
      node_id_handshake.set_response_flag, bitset_set, node_id_handshake.is_query_flag,
      node_id_handshake.is_response_flag, node_id_handshake.query_flag,
      node_id_handshake.response_flag] <;>
    decide

theorem mk_type_passes_checks (c : constants) (type_a : Nat)
    (hmin : c.protocol_version_min ≤ c.protocol_version)
    (hbeta : c.nano_network = nano_networks.nano_beta_network →
      c.protocol_version_reasonable_min ≤ c.protocol_version)
    (hmagic : c.valid_magic (message_header.mk_type c type_a) = true)
    (hnet : c.valid_network (message_header.mk_type c type_a) = true) :
    message_parser_state.passes_checks c (message_header.mk_type c type_a) := by
  refine ⟨?_, ?_, hmagic, hnet⟩
  · rintro ⟨hb, hlt⟩
    have := hbeta hb
    simp only [message_header.mk_type] at hlt
    omega
  · simp only [message_header.mk_type]
    omega

theorem bulk_types_not_dispatched (c : constants) (henum : c.message_type.enumerators.Nodup)
    (t : Nat)
    (ht : t ∈ [c.message_type.bulk_pull, c.message_type.bulk_push, c.message_type.frontier_req,
      c.message_type.bulk_pull_account]) :
    t ∉ [c.message_type.keepalive, c.message_type.publish, c.message_type.confirm_req,
      c.message_type.confirm_ack, c.message_type.node_id_handshake] := by
  simp only [message_type.enumerators, List.nodup_cons, List.mem_cons, List.mem_singleton,
    not_or, List.not_mem_nil, not_false_eq_true, List.nodup_nil, and_true] at henum
  simp only [List.mem_cons, List.mem_singleton, List.not_mem_nil, or_false] at ht
  simp only [List.mem_cons, List.mem_singleton, List.not_mem_nil, or_false, not_or]
  obtain ⟨⟨-, -, -, k5, k6, k7, -, k9⟩, ⟨-, -, p5, p6, p7, -, p9⟩, ⟨-, r5, r6, r7, -, r9⟩,
    ⟨a5, a6, a7, -, a9⟩, ⟨-, -, n5, -⟩, ⟨-, n6, -⟩, ⟨n7, -⟩, n9⟩ := henum
  rcases ht with h | h | h | h <;> subst h
  · exact ⟨fun e => k5 e.symm, fun e => p5 e.symm, fun e => r5 e.symm, fun e => a5 e.symm, n5⟩
  · exact ⟨fun e => k6 e.symm, fun e => p6 e.symm, fun e => r6 e.symm, fun e => a6 e.symm, n6⟩
  · exact ⟨fun e => k7 e.symm, fun e => p7 e.symm, fun e => r7 e.symm, fun e => a7 e.symm, n7⟩
  · exact ⟨fun e => k9 e.symm, fun e => p9 e.symm, fun e => r9 e.symm, fun e => a9 e.symm,
      fun e => n9 e.symm⟩

theorem deserialize_peers_serialize_peers (peers : List endpoint) (rest : stream)
    (haddr : ∀ e ∈ peers, e.address.length = 16) (hport : ∀ e ∈ peers, e.port < 65536) :
    keepalive.deserialize_peers peers.length (keepalive.serialize_peers peers ++ rest)
      = some (peers, rest) := by
  induction peers with
  | nil => simp [keepalive.deserialize_peers, keepalive.serialize_peers]
  | cons e tail ih =>
    have ha := haddr e (List.mem_cons_self _ _)
    have hp := hport e (List.mem_cons_self _ _)
    have ht := ih (fun x hx => haddr x (List.mem_cons_of_mem _ hx))
      (fun x hx => hport x (List.mem_cons_of_mem _ hx))
    have h1 : keepalive.serialize_peers (e :: tail) ++ rest
        = e.address ++ (write_uint16 e.port ++ (keepalive.serialize_peers tail ++ rest)) := by
      simp [keepalive.serialize_peers, List.append_assoc]
    rw [h1]
    simp only [List.length_cons, keepalive.deserialize_peers,
      read_bytes_append 16 e.address _ ha, write_uint16_read e.port hp, ht]

/-- C11: a keepalive with eight IPv6 peers is written as 8 + 144 bytes, and decoding them
(header, then `keepalive::deserialize`) reports no error, leaves the stream empty and gives
a message equal to the original under `keepalive::operator==`, peer by peer. -/
theorem keepalive_roundtrip (c : constants) (k : keepalive) (hwf : keepalive.wf c k)
    (hport : ∀ e ∈ k.peers, e.port < 65536) :
    (keepalive.serialize c k).length = 8 + 144 ∧
      ∃ header s k2, message_header.deserialize c (keepalive.serialize c k) = some (header, s) ∧
        keepalive.deserialize header s = some (k2, []) ∧
        keepalive.eq k2 k = true ∧ k2.peers = k.peers := by
  obtain ⟨-, hext, hlen, haddr⟩ := hwf
  have hpl : (keepalive.serialize_peers k.peers).length = 144 := by
    rw [serialize_peers_length k.peers haddr, hlen]
  obtain ⟨h8, hdec⟩ := header_serialize_deserialize c k.header (keepalive.serialize_peers k.peers)
    hext
  have hp := deserialize_peers_serialize_peers k.peers [] haddr hport
  rw [hlen, List.append_nil] at hp
  refine ⟨by simp [keepalive.serialize, h8, hpl], k.header, keepalive.serialize_peers k.peers,
    { header := k.header, peers := k.peers }, hdec, ?_, ?_, rfl⟩
  · simp [keepalive.deserialize, hp]
  · simp [keepalive.eq]

theorem keepalive_roundtrip_witness :
    (keepalive.serialize live_constants
        { header := message_header.mk_type live_constants 2,
          peers := List.replicate 8 { address := List.replicate 16 0xab, port := 7075 } }).length
      = 8 + 144 ∧
    ∃ header s k2, message_header.deserialize live_constants
        (keepalive.serialize live_constants
          { header := message_header.mk_type live_constants 2,
            peers := List.replicate 8 { address := List.replicate 16 0xab, port := 7075 } })
          = some (header, s) ∧
      keepalive.deserialize header s = some (k2, []) ∧
      keepalive.eq k2
        { header := message_header.mk_type live_constants 2,
          peers := List.replicate 8 { address := List.replicate 16 0xab, port := 7075 } } = true ∧
      k2.peers = List.replicate 8 { address := List.replicate 16 0xab, port := 7075 } :=
  keepalive_roundtrip live_constants
    { header := message_header.mk_type live_constants 2,
      peers := List.replicate 8 { address := List.replicate 16 0xab, port := 7075 } }
    ⟨rfl, by decide, rfl, by decide⟩ (by decide)

/-- C12: after a keepalive header that passes the checks, the parser ends with `success`
and one `visitor.keepalive` call exactly when the payload has 144 bytes; with any other
payload length the status is `invalid_keepalive_message`. -/
theorem keepalive_payload_length {Block : Type} (c : constants) (X : collaborators Block)
    (p : message_parser_state Block) (buffer_a : List Nat) (header : message_header)
    (payload : stream) (hsize : buffer_a.length ≤ 508)
    (hdec : message_header.deserialize c buffer_a = some (header, payload))
    (hok : message_parser_state.passes_checks c header)
    (htype : header.type = c.message_type.keepalive) :
    (((message_parser_state.deserialize_buffer c X p buffer_a).status = parse_status.success ∧
        ∃ incoming, (message_parser_state.deserialize_buffer c X p buffer_a).visitor
          = p.visitor ++ [visitor_call.keepalive incoming]) ↔ payload.length = 144) ∧
      (payload.length ≠ 144 →
        (message_parser_state.deserialize_buffer c X p buffer_a).status
          = parse_status.invalid_keepalive_message) := by
  rw [deserialize_buffer_of_header c X p buffer_a header payload hsize hdec hok]
  have hd : message_parser_state.dispatch c X { p with status := parse_status.success } payload
      header
      = message_parser_state.deserialize_keepalive { p with status := parse_status.success }
          payload header := by
    simp [message_parser_state.dispatch, htype]
  rw [hd]
  by_cases hl : payload.length = 144
  · obtain ⟨incoming, hi⟩ :=
      deserialize_keepalive_of_exact { p with status := parse_status.success } payload header hl
    rw [hi]
    exact ⟨⟨fun _ => hl, fun _ => ⟨rfl, incoming, rfl⟩⟩, fun h => absurd hl h⟩
  · rw [deserialize_keepalive_of_ne _ _ _ hl]
    refine ⟨⟨fun h => ?_, fun h => absurd h hl⟩, fun _ => rfl⟩
    have := h.1
    simp at this

theorem keepalive_payload_length_witness :
    (((message_parser_state.deserialize_buffer live_constants byte_collaborators
          (message_parser_state.initial Nat)
          ([0x52, 0x43, 0x10, 0x10, 0x0d, 2, 0, 0] ++ List.replicate 143 0)).status
        = parse_status.success ∧
        ∃ incoming, (message_parser_state.deserialize_buffer live_constants byte_collaborators
          (message_parser_state.initial Nat)
          ([0x52, 0x43, 0x10, 0x10, 0x0d, 2, 0, 0] ++ List.replicate 143 0)).visitor
          = (message_parser_state.initial Nat).visitor ++ [visitor_call.keepalive incoming]) ↔
        (List.replicate 143 0).length = 144) ∧
      ((List.replicate 143 0).length ≠ 144 →
        (message_parser_state.deserialize_buffer live_constants byte_collaborators
          (message_parser_state.initial Nat)
          ([0x52, 0x43, 0x10, 0x10, 0x0d, 2, 0, 0] ++ List.replicate 143 0)).status
          = parse_status.invalid_keepalive_message) :=
  keepalive_payload_length live_constants byte_collaborators (message_parser_state.initial Nat)
    ([0x52, 0x43, 0x10, 0x10, 0x0d, 2, 0, 0] ++ List.replicate 143 0) ⟨0x10, 0x10, 0x0d, 2, 0⟩
    (List.replicate 143 0)
    (by rw [List.length_append, List.length_replicate]; decide)
    (by simp [message_header.deserialize, read_bytes, read_uint8, read_uint16, live_constants])
    (by decide) (by decide)

theorem write_uint32_read (v : Nat) (hv : v < 4294967296) (rest : stream) :
    read_uint32 (write_uint32 v ++ rest) = some (v, rest) := by
  simp only [write_uint32, read_uint32, List.cons_append, List.nil_append]
  congr 2
  omega

theorem frontier_req_deserialize_serialized (header_a : message_header) (start : List Nat)
    (age count : Nat) (rest : stream) (hstart : start.length = 32) (hage : age < 4294967296)
    (hcount : count < 4294967296) :
    frontier_req.deserialize header_a (start ++ write_uint32 age ++ write_uint32 count ++ rest)
      = some ({ header := header_a, start := start, age := age, count := count }, rest) := by
  simp only [frontier_req.deserialize, List.append_assoc, read_bytes_append 32 start _ hstart,
    write_uint32_read age hage, write_uint32_read count hcount]

theorem header_serialize_length (c : constants) (h : message_header) :
    (message_header.serialize c h).length = 8 := by
  simp [message_header.serialize, write_uint8, write_uint16]

/-- C13: a frontier_req is written as the 8-byte header followed by exactly 40 bytes: the 32
bytes of `start`, then `age` in 4 bytes, then `count` in 4 bytes; `frontier_req::deserialize`
on that payload reports no error and recovers `start`, `age` and `count`.  With `start`
zero, `age = 0xFFFFFFFF` and `count = 1` the payload is 32 zero bytes, `FF FF FF FF`,
`01 00 00 00`. -/
theorem frontier_req_roundtrip (c : constants) (m : frontier_req) (hstart : m.start.length = 32)
    (hage : m.age < 4294967296) (hcount : m.count < 4294967296) :
    (frontier_req.serialize c m
        = message_header.serialize c m.header
          ++ (m.start ++ write_uint32 m.age ++ write_uint32 m.count) ∧
      (message_header.serialize c m.header).length = 8 ∧
      (write_uint32 m.age).length = 4 ∧ (write_uint32 m.count).length = 4 ∧
      (m.start ++ write_uint32 m.age ++ write_uint32 m.count).length = 40) ∧
    (∃ m2, frontier_req.deserialize m.header
          (m.start ++ write_uint32 m.age ++ write_uint32 m.count) = some (m2, []) ∧
        m2.start = m.start ∧ m2.age = m.age ∧ m2.count = m.count ∧
        frontier_req.eq m2 m = true) ∧
    (m.start = List.replicate 32 0 → m.age = 0xFFFFFFFF → m.count = 1 →
      frontier_req.serialize c m
        = message_header.serialize c m.header
          ++ (List.replicate 32 0 ++ [0xFF, 0xFF, 0xFF, 0xFF] ++ [0x01, 0x00, 0x00, 0x00])) := by
  refine ⟨⟨?_, header_serialize_length c m.header, rfl, rfl, ?_⟩, ⟨m, ?_, rfl, rfl, rfl, ?_⟩, ?_⟩
  · simp [frontier_req.serialize, List.append_assoc]
  · simp [hstart, write_uint32]
  · have h := frontier_req_deserialize_serialized m.header m.start m.age m.count [] hstart
      hage hcount
    rw [List.append_nil] at h
    exact h
  · simp [frontier_req.eq]
  · intro h1 h2 h3
    simp [frontier_req.serialize, h1, h2, h3, write_uint32, List.append_assoc]

theorem frontier_req_roundtrip_witness :
    frontier_req.serialize live_constants
        { header := message_header.mk_type live_constants 8, start := List.replicate 32 0,
          age := 0xFFFFFFFF, count := 1 }
      = message_header.serialize live_constants (message_header.mk_type live_constants 8)
        ++ (List.replicate 32 0 ++ [0xFF, 0xFF, 0xFF, 0xFF] ++ [0x01, 0x00, 0x00, 0x00]) :=
  (frontier_req_roundtrip live_constants
      { header := message_header.mk_type live_constants 8, start := List.replicate 32 0,
        age := 0xFFFFFFFF, count := 1 }
      (List.length_replicate _ _) (by decide) (by decide)).2.2 rfl rfl rfl

theorem to_little_endian_length (n v : Nat) : (to_little_endian n v).length = n := by
  induction n generalizing v with
  | zero => rfl
  | succ n ih => simp [to_little_endian, ih]

theorem of_to_little_endian (n v : Nat) :
    of_little_endian (to_little_endian n v) = v % 256 ^ n := by
  induction n generalizing v with
  | zero => simp [to_little_endian, of_little_endian, Nat.mod_one]
  | succ n ih =>
    simp only [to_little_endian, of_little_endian, ih]
    rw [pow_succ, Nat.mul_comm (256 ^ n) 256, Nat.mod_mul]

theorem bulk_pull_deserialize_no_count (sizeof_count : Nat) (h : message_header)
    (start end_ : List Nat) (rest : stream) (hp : bulk_pull.is_count_present h = false)
    (hs : start.length = 32) (he : end_.length = 32) :
    bulk_pull.deserialize sizeof_count h (start ++ end_ ++ rest)
      = some ({ header := h, start := start, end_ := end_, count := 0 }, rest) := by
  simp [bulk_pull.deserialize, List.append_assoc, read_bytes_append 32 start _ hs,
    read_bytes_append 32 end_ _ he, hp]

theorem bulk_pull_deserialize_reserved (sizeof_count : Nat) (h : message_header)
    (start end_ : List Nat) (b : Nat) (tail : stream)
    (hp : bulk_pull.is_count_present h = true) (hs : start.length = 32)
    (he : end_.length = 32) (hb : b ≠ 0) :
    bulk_pull.deserialize sizeof_count h (start ++ end_ ++ b :: tail) = none := by
  simp only [bulk_pull.deserialize, List.append_assoc, read_bytes_append 32 start _ hs,
    read_bytes_append 32 end_ _ he, hp, if_true]
  by_cases hl : bulk_pull.extended_parameters_size ≤ (b :: tail).length
  · rw [read_bytes_of_le _ _ hl]
    have : (List.take bulk_pull.extended_parameters_size (b :: tail)).head? = some b := by
      simp [bulk_pull.extended_parameters_size]
    simp [this, hb]
  · rw [read_bytes_of_lt _ _ (by omega)]

theorem bulk_pull_deserialize_short (sizeof_count : Nat) (h : message_header)
    (start end_ ext : List Nat) (hp : bulk_pull.is_count_present h = true)
    (hs : start.length = 32) (he : end_.length = 32) (hx : ext.length < 8) :
    bulk_pull.deserialize sizeof_count h (start ++ end_ ++ ext) = none := by
  simp only [bulk_pull.deserialize, List.append_assoc, read_bytes_append 32 start _ hs,
    read_bytes_append 32 end_ _ he, hp, if_true]
  rw [read_bytes_of_lt _ _ (by simpa [bulk_pull.extended_parameters_size] using hx)]

theorem bulk_pull_deserialize_extended (sizeof_count : Nat) (h : message_header)
    (start end_ ext : List Nat) (rest : stream) (hp : bulk_pull.is_count_present h = true)
    (hs : start.length = 32) (he : end_.length = 32)
    (hx : ext.length = bulk_pull.extended_parameters_size) (h0 : ext.head? = some 0) :
    bulk_pull.deserialize sizeof_count h (start ++ end_ ++ ext ++ rest)
      = some ({ header := h, start := start, end_ := end_,
                count := of_little_endian ((ext.drop 1).take sizeof_count) }, rest) := by
  simp [bulk_pull.deserialize, List.append_assoc, read_bytes_append 32 start _ hs,
    read_bytes_append 32 end_ _ he, hp, read_bytes_append _ ext _ hx, h0]

theorem bulk_pull_deserialize_count (sizeof_count : Nat) (hn : sizeof_count < 7)
    (h : message_header) (start end_ : List Nat) (count : Nat) (rest : stream)
    (hp : bulk_pull.is_count_present h = true) (hs : start.length = 32)
    (he : end_.length = 32) (hc : count < 256 ^ sizeof_count) :
    bulk_pull.deserialize sizeof_count h
        (start ++ end_
          ++ ([0] ++ to_little_endian sizeof_count count
                ++ List.replicate (bulk_pull.extended_parameters_size - 1 - sizeof_count) 0)
          ++ rest)
      = some ({ header := h, start := start, end_ := end_, count := count }, rest) := by
  have hlen : ([0] ++ to_little_endian sizeof_count count
      ++ List.replicate (bulk_pull.extended_parameters_size - 1 - sizeof_count) 0).length
        = bulk_pull.extended_parameters_size := by
    simp [to_little_endian_length, bulk_pull.extended_parameters_size]
    omega
  have htake : List.take sizeof_count
      (to_little_endian sizeof_count count
        ++ List.replicate (bulk_pull.extended_parameters_size - 1 - sizeof_count) 0)
      = to_little_endian sizeof_count count := by
    rw [List.take_append_of_le_length (by rw [to_little_endian_length])]
    exact List.take_of_length_le (by rw [to_little_endian_length])
  rw [bulk_pull_deserialize_extended sizeof_count h start end_ _ rest hp hs he hlen (by simp)]
  simp [htake, of_to_little_endian, Nat.mod_eq_of_lt hc]

/-- C14: with the count-present bit set, `bulk_pull::deserialize` fails when the first byte
of the extended block is not zero and fails when fewer than 8 bytes follow `start` and
`end`; for a message with that bit set and `count != 0`, decoding what `serialize` wrote
(header, then `bulk_pull::deserialize`) reports no error and recovers `start`, `end` and
`count`; with the bit clear only `start` and `end` are read and `count` is 0. -/
theorem bulk_pull_extended_count (sizeof_count : Nat) (hn : sizeof_count < 7) :
    (∀ (h : message_header) (start end_ : List Nat) (b : Nat) (tail : stream),
      bulk_pull.is_count_present h = true → start.length = 32 → end_.length = 32 → b ≠ 0 →
      bulk_pull.deserialize sizeof_count h (start ++ end_ ++ b :: tail) = none) ∧
    (∀ (h : message_header) (start end_ ext : List Nat),
      bulk_pull.is_count_present h = true → start.length = 32 → end_.length = 32 →
      ext.length < 8 → bulk_pull.deserialize sizeof_count h (start ++ end_ ++ ext) = none) ∧
    (∀ (c : constants) (m : bulk_pull) (rest : stream),
      bulk_pull.is_count_present m.header = true → m.count ≠ 0 →
      m.count < 256 ^ sizeof_count → m.header.extensions < 65536 →
      m.start.length = 32 → m.end_.length = 32 →
      ∃ s, message_header.deserialize c (bulk_pull.serialize c sizeof_count m ++ rest)
            = some (m.header, s) ∧
        bulk_pull.deserialize sizeof_count m.header s = some (m, rest)) ∧
    (∀ (h : message_header) (start end_ : List Nat) (rest : stream),
      bulk_pull.is_count_present h = false → start.length = 32 → end_.length = 32 →
      bulk_pull.deserialize sizeof_count h (start ++ end_ ++ rest)
        = some ({ header := h, start := start, end_ := end_, count := 0 }, rest)) := by
  refine ⟨?_, ?_, ?_, ?_⟩
  · intro h start end_ b tail hp hs he hb
    exact bulk_pull_deserialize_reserved sizeof_count h start end_ b tail hp hs he hb
  · intro h start end_ ext hp hs he hx
    exact bulk_pull_deserialize_short sizeof_count h start end_ ext hp hs he hx
  · intro c m rest hp _ hc hext hs he
    refine ⟨m.start ++ m.end_
        ++ ([0] ++ to_little_endian sizeof_count m.count
              ++ List.replicate (bulk_pull.extended_parameters_size - 1 - sizeof_count) 0)
        ++ rest, ?_, ?_⟩
    · have hd := (header_serialize_deserialize c m.header
        (m.start ++ m.end_
          ++ ([0] ++ to_little_endian sizeof_count m.count
                ++ List.replicate (bulk_pull.extended_parameters_size - 1 - sizeof_count) 0)
          ++ rest) hext).2
      rw [← hd]
      simp [bulk_pull.serialize, hp, List.append_assoc]
    · exact bulk_pull_deserialize_count sizeof_count hn m.header m.start m.end_ m.count rest
        hp hs he hc
  · intro h start end_ rest hp hs he
    exact bulk_pull_deserialize_no_count sizeof_count h start end_ rest hp hs he

theorem bulk_pull_extended_count_witness :
    bulk_pull.deserialize 4 ⟨0x10, 0x10, 0x0d, 6, 1⟩
        (List.replicate 32 1 ++ List.replicate 32 2 ++ 5 :: [1, 0, 0, 0, 0, 0, 0]) = none ∧
      ∃ s, message_header.deserialize live_constants
          (bulk_pull.serialize live_constants 4
              { header := ⟨0x10, 0x10, 0x0d, 6, 1⟩, start := List.replicate 32 1,
                end_ := List.replicate 32 2, count := 0x01020304 } ++ [])
            = some (⟨0x10, 0x10, 0x0d, 6, 1⟩, s) ∧
        bulk_pull.deserialize 4 ⟨0x10, 0x10, 0x0d, 6, 1⟩ s
          = some ({ header := ⟨0x10, 0x10, 0x0d, 6, 1⟩, start := List.replicate 32 1,
                    end_ := List.replicate 32 2, count := 0x01020304 }, []) :=
  ⟨(bulk_pull_extended_count 4 (by decide)).1 ⟨0x10, 0x10, 0x0d, 6, 1⟩ (List.replicate 32 1)
      (List.replicate 32 2) 5 [1, 0, 0, 0, 0, 0, 0] (by decide) (List.length_replicate _ _)
      (List.length_replicate _ _) (by decide),
    (bulk_pull_extended_count 4 (by decide)).2.2.1 live_constants
      { header := ⟨0x10, 0x10, 0x0d, 6, 1⟩, start := List.replicate 32 1,
        end_ := List.replicate 32 2, count := 0x01020304 } []
      (by decide) (by decide) (by decide) (by decide) (List.length_replicate _ _)
      (List.length_replicate _ _)⟩

theorem read_bytes_some_length (n : Nat) (s : stream) (a : List Nat) (r : stream)
    (h : read_bytes n s = some (a, r)) : s.length = n + r.length := by
  unfold read_bytes at h
  by_cases hl : n ≤ s.length
  · simp only [hl, if_true, Option.some.injEq, Prod.mk.injEq] at h
    rw [← h.2, List.length_drop]
    omega
  · simp [hl] at h

theorem read_uint8_some_length (s : stream) (v : Nat) (r : stream)
    (h : read_uint8 s = some (v, r)) : s.length = 1 + r.length := by
  cases s with
  | nil => simp [read_uint8] at h
  | cons b t =>
    simp only [read_uint8, Option.some.injEq, Prod.mk.injEq] at h
    rw [← h.2, List.length_cons]
    omega

theorem read_uint32_some_length (s : stream) (v : Nat) (r : stream)
    (h : read_uint32 s = some (v, r)) : s.length = 4 + r.length := by
  rcases s with _ | ⟨b0, _ | ⟨b1, _ | ⟨b2, _ | ⟨b3, t⟩⟩⟩⟩ <;>
    simp only [read_uint32, Option.some.injEq, Prod.mk.injEq, reduceCtorEq] at h
  rw [← h.2]
  simp only [List.length_cons]
  omega

theorem bulk_pull_deserialize_consumed (sizeof_count : Nat) (h : message_header) (s : stream)
    (m : bulk_pull) (rest : stream) (hd : bulk_pull.deserialize sizeof_count h s = some (m, rest)) :
    s.length = (64 + if bulk_pull.is_count_present h then 8 else 0) + rest.length := by
  unfold bulk_pull.deserialize at hd
  cases h1 : read_bytes 32 s with
  | none => simp [h1] at hd
  | some r1 =>
    obtain ⟨a1, s1⟩ := r1
    have l1 := read_bytes_some_length 32 s a1 s1 h1
    simp only [h1] at hd
    cases h2 : read_bytes 32 s1 with
    | none => simp [h2] at hd
    | some r2 =>
      obtain ⟨a2, s2⟩ := r2
      have l2 := read_bytes_some_length 32 s1 a2 s2 h2
      simp only [h2] at hd
      by_cases hp : bulk_pull.is_count_present h = true
      · simp only [hp, if_true] at hd ⊢
        cases h3 : read_bytes bulk_pull.extended_parameters_size s2 with
        | none => simp [h3] at hd
        | some r3 =>
          obtain ⟨a3, s3⟩ := r3
          have l3 := read_bytes_some_length _ s2 a3 s3 h3
          simp only [h3] at hd
          by_cases h0 : a3.head? ≠ some 0
          · simp [h0] at hd
          · simp only [h0, if_false, Option.some.injEq, Prod.mk.injEq] at hd
            rw [← hd.2]
            simp only [bulk_pull.extended_parameters_size] at l3
            omega
      · have hp2 : bulk_pull.is_count_present h = false := by simpa using hp
        simp only [hp2, Bool.false_eq_true, if_false, Option.some.injEq, Prod.mk.injEq] at hd ⊢
        rw [← hd.2]
        omega

theorem payload_length_bytes_bulk_pull (c : constants) (h : message_header)
    (ht : h.type = c.message_type.bulk_pull) :
    h.payload_length_bytes c = 64 + if bulk_pull.is_count_present h then 8 else 0 := by
  by_cases hp : h.extensions.testBit 0 = true <;>
    simp [message_header.payload_length_bytes, message_header.bulk_pull_is_count_present, ht,
      message_header.bulk_pull_count_present_flag, bulk_pull.is_count_present,
      bulk_pull.count_present_flag, bulk_pull.size, bulk_pull.extended_parameters_size, hp]

theorem payload_length_bytes_others (c : constants) (henum : c.message_type.enumerators.Nodup)
    (h : message_header) :
    (h.type = c.message_type.bulk_push → h.payload_length_bytes c = 0) ∧
      (h.type = c.message_type.frontier_req → h.payload_length_bytes c = 40) ∧
      (h.type = c.message_type.bulk_pull_account → h.payload_length_bytes c = 49) := by
  simp only [message_type.enumerators, List.nodup_cons, List.mem_cons, List.mem_singleton,
    not_or, List.not_mem_nil, not_false_eq_true, List.nodup_nil, and_true] at henum
  obtain ⟨-, -, -, -, ⟨b1, b2, -, b3⟩, ⟨p1, -, p2⟩, ⟨-, f1⟩, -⟩ := henum
  refine ⟨?_, ?_, ?_⟩ <;> intro ht
  · have n1 : ¬ c.message_type.bulk_push = c.message_type.bulk_pull := fun e => b1 e.symm
    simp [message_header.payload_length_bytes, ht, n1]
  · have n1 : ¬ c.message_type.frontier_req = c.message_type.bulk_pull := fun e => b2 e.symm
    have n2 : ¬ c.message_type.frontier_req = c.message_type.bulk_push := fun e => p1 e.symm
    simp [message_header.payload_length_bytes, ht, n1, n2, frontier_req.size]
  · have n1 : ¬ c.message_type.bulk_pull_account = c.message_type.bulk_pull :=
      fun e => b3 e.symm
    have n2 : ¬ c.message_type.bulk_pull_account = c.message_type.bulk_push :=
      fun e => p2 e.symm
    have n3 : ¬ c.message_type.bulk_pull_account = c.message_type.frontier_req :=
      fun e => f1 e.symm
    simp [message_header.payload_length_bytes, ht, n1, n2, n3, bulk_pull_account.size]

theorem frontier_req_deserialize_consumed (h : message_header) (s : stream) (m : frontier_req)
    (rest : stream) (hd : frontier_req.deserialize h s = some (m, rest)) :
    s.length = 40 + rest.length := by
  unfold frontier_req.deserialize at hd
  cases h1 : read_bytes 32 s with
  | none => simp [h1] at hd
  | some r1 =>
    obtain ⟨a1, s1⟩ := r1
    have l1 := read_bytes_some_length 32 s a1 s1 h1
    simp only [h1] at hd
    cases h2 : read_uint32 s1 with
    | none => simp [h2] at hd
    | some r2 =>
      obtain ⟨a2, s2⟩ := r2
      have l2 := read_uint32_some_length s1 a2 s2 h2
      simp only [h2] at hd
      cases h3 : read_uint32 s2 with
      | none => simp [h3] at hd
      | some r3 =>
        obtain ⟨a3, s3⟩ := r3
        have l3 := read_uint32_some_length s2 a3 s3 h3
        simp only [h3, Option.some.injEq, Prod.mk.injEq] at hd
        rw [← hd.2]
        omega

theorem bulk_pull_account_deserialize_consumed (h : message_header) (s : stream)
    (m : bulk_pull_account) (rest : stream)
    (hd : bulk_pull_account.deserialize h s = some (m, rest)) : s.length = 49 + rest.length := by
  unfold bulk_pull_account.deserialize at hd
  cases h1 : read_bytes 32 s with
  | none => simp [h1] at hd
  | some r1 =>
    obtain ⟨a1, s1⟩ := r1
    have l1 := read_bytes_some_length 32 s a1 s1 h1
    simp only [h1] at hd
    cases h2 : read_bytes 16 s1 with
    | none => simp [h2] at hd
    | some r2 =>
      obtain ⟨a2, s2⟩ := r2
      have l2 := read_bytes_some_length 16 s1 a2 s2 h2
      simp only [h2] at hd
      cases h3 : read_uint8 s2 with
      | none => simp [h3] at hd
      | some r3 =>
        obtain ⟨a3, s3⟩ := r3
        have l3 := read_uint8_some_length s2 a3 s3 h3
        simp only [h3, Option.some.injEq, Prod.mk.injEq] at hd
        rw [← hd.2]
        omega

/-- C15: for bulk_pull (under the assertion of its `serialize`), frontier_req,
bulk_pull_account and bulk_push, `serialize` writes the 8-byte header and then exactly
`header.payload_length_bytes ()` bytes: 64 for bulk_pull without count, 72 with count, 40,
49 and 0; and a `deserialize` that succeeds has consumed exactly that many bytes. -/
theorem payload_length_bytes_matches (c : constants) (sizeof_count : Nat)
    (henum : c.message_type.enumerators.Nodup) (hn : sizeof_count < 7) :
    (∀ m : bulk_pull, m.header.type = c.message_type.bulk_pull →
      bulk_pull.serialize_assertion m → m.start.length = 32 → m.end_.length = 32 →
      (bulk_pull.serialize c sizeof_count m).length = 8 + m.header.payload_length_bytes c ∧
        m.header.payload_length_bytes c = (if m.count = 0 then 64 else 72)) ∧
    (∀ m : frontier_req, m.header.type = c.message_type.frontier_req → m.start.length = 32 →
      (frontier_req.serialize c m).length = 8 + m.header.payload_length_bytes c ∧
        m.header.payload_length_bytes c = 40) ∧
    (∀ m : bulk_pull_account, m.header.type = c.message_type.bulk_pull_account →
      m.account.length = 32 → m.minimum_amount.length = 16 →
      (bulk_pull_account.serialize c m).length = 8 + m.header.payload_length_bytes c ∧
        m.header.payload_length_bytes c = 49) ∧
    (∀ m : bulk_push, m.header.type = c.message_type.bulk_push →
      (bulk_push.serialize c m).length = 8 + m.header.payload_length_bytes c ∧
        m.header.payload_length_bytes c = 0) ∧
    (∀ (h : message_header) (s rest : stream) (m : bulk_pull),
      h.type = c.message_type.bulk_pull →
      bulk_pull.deserialize sizeof_count h s = some (m, rest) →
      s.length = h.payload_length_bytes c + rest.length) ∧
    (∀ (h : message_header) (s rest : stream) (m : frontier_req),
      h.type = c.message_type.frontier_req → frontier_req.deserialize h s = some (m, rest) →
      s.length = h.payload_length_bytes c + rest.length) ∧
    (∀ (h : message_header) (s rest : stream) (m : bulk_pull_account),
      h.type = c.message_type.bulk_pull_account →
      bulk_pull_account.deserialize h s = some (m, rest) →
      s.length = h.payload_length_bytes c + rest.length) ∧
    (∀ (h : message_header) (s rest : stream) (m : bulk_push),
      h.type = c.message_type.bulk_push → bulk_push.deserialize h s = some (m, rest) →
      s.length = h.payload_length_bytes c + rest.length) := by
  refine ⟨?_, ?_, ?_, ?_, ?_, ?_, ?_, ?_⟩
  · intro m ht ha hs he
    rw [payload_length_bytes_bulk_pull c m.header ht]
    rcases ha with ⟨h0, hp⟩ | ⟨h0, hp⟩
    · simp [bulk_pull.serialize, header_serialize_length, hs, he, hp, h0]
    · simp [bulk_pull.serialize, header_serialize_length, hs, he, hp, h0,
        to_little_endian_length, bulk_pull.extended_parameters_size]
      omega
  · intro m ht hs
    rw [(payload_length_bytes_others c henum m.header).2.1 ht]
    simp [frontier_req.serialize, header_serialize_length, hs, write_uint32]
  · intro m ht ha hm
    rw [(payload_length_bytes_others c henum m.header).2.2 ht]
    simp [bulk_pull_account.serialize, header_serialize_length, ha, hm, write_uint8]
  · intro m ht
    rw [(payload_length_bytes_others c henum m.header).1 ht]
    simp [bulk_push.serialize, header_serialize_length]
  · intro h s rest m ht hd
    rw [payload_length_bytes_bulk_pull c h ht]
    exact bulk_pull_deserialize_consumed sizeof_count h s m rest hd
  · intro h s rest m ht hd
    rw [(payload_length_bytes_others c henum h).2.1 ht]
    exact frontier_req_deserialize_consumed h s m rest hd
  · intro h s rest m ht hd
    rw [(payload_length_bytes_others c henum h).2.2 ht]
    exact bulk_pull_account_deserialize_consumed h s m rest hd
  · intro h s rest m ht hd
    rw [(payload_length_bytes_others c henum h).1 ht]
    simp only [bulk_push.deserialize, Option.some.injEq, Prod.mk.injEq] at hd
    rw [hd.2]
    omega

theorem payload_length_bytes_matches_witness :
    (bulk_pull.serialize live_constants 4
        { header := ⟨0x10, 0x10, 0x0d, 6, 1⟩, start := List.replicate 32 1,
          end_ := List.replicate 32 2, count := 3 }).length
      = 8 + message_header.payload_length_bytes live_constants ⟨0x10, 0x10, 0x0d, 6, 1⟩ ∧
    message_header.payload_length_bytes live_constants ⟨0x10, 0x10, 0x0d, 6, 1⟩
      = (if (3 : Nat) = 0 then 64 else 72) :=
  (payload_length_bytes_matches live_constants 4 (by decide) (by decide)).1
    { header := ⟨0x10, 0x10, 0x0d, 6, 1⟩, start := List.replicate 32 1,
      end_ := List.replicate 32 2, count := 3 }
    rfl (Or.inr ⟨by decide, by decide⟩) (List.length_replicate _ _) (List.length_replicate _ _)

theorem node_id_handshake_serialize_length (c : constants) (m : node_id_handshake)
    (hql : ∀ q, m.query = some q → q.length = 32)
    (hrl : ∀ r, m.response = some r → r.1.length = 32 ∧ r.2.length = 64) :
    (node_id_handshake.serialize c m).length
      = 8 + (if m.query.isSome then 32 else 0) + (if m.response.isSome then 96 else 0) := by
  have hpl := node_id_handshake_payload_length m hql hrl
  have h8 := header_serialize_length c m.header
  simp only [node_id_handshake.serialize, List.length_append] at hpl ⊢
  omega

/-- C16: for the handshake built by the (query, response) constructor, in each of the four
presence combinations, the query bit is set iff a query is present and the response bit iff
a response is present; `serialize` writes 8 + 32 (query) + 96 (response) bytes, nothing for
an absent field; and decoding those bytes (header, then `node_id_handshake::deserialize`)
reports no error, empties the stream and returns the same optional query and response. -/
theorem node_id_handshake_roundtrip (c : constants) (query : Option (List Nat))
    (response : Option (List Nat × List Nat)) (hq : ∀ q, query = some q → q.length = 32)
    (hr : ∀ r, response = some r → r.1.length = 32 ∧ r.2.length = 64) :
    node_id_handshake.is_query_flag (node_id_handshake.mk_fields c query response).header
        = query.isSome ∧
      node_id_handshake.is_response_flag (node_id_handshake.mk_fields c query response).header
        = response.isSome ∧
      (node_id_handshake.serialize c (node_id_handshake.mk_fields c query response)).length
        = 8 + (if query.isSome then 32 else 0) + (if response.isSome then 96 else 0) ∧
      ∃ header s m2,
        message_header.deserialize c
            (node_id_handshake.serialize c (node_id_handshake.mk_fields c query response))
          = some (header, s) ∧
        node_id_handshake.deserialize header s = some (m2, []) ∧
        m2.query = query ∧ m2.response = response := by
  obtain ⟨-, hext, hqf, hrf, hql, hrl⟩ := node_id_handshake_mk_fields_wf c query response hq hr
  have hds := node_id_handshake_deserialize_serialized
    (node_id_handshake.mk_fields c query response) hqf hrf hql hrl []
  rw [List.append_nil] at hds
  have hdec := (header_serialize_deserialize c
    (node_id_handshake.mk_fields c query response).header
    ((match (node_id_handshake.mk_fields c query response).query with
        | some q => q
        | none => [])
      ++ (match (node_id_handshake.mk_fields c query response).response with
        | some r => r.1 ++ r.2
        | none => [])) hext).2
  refine ⟨hqf, hrf, node_id_handshake_serialize_length c _ hql hrl, _, _, _, ?_, hds, rfl, rfl⟩
  rw [← hdec]
  simp [node_id_handshake.serialize, List.append_assoc]

theorem node_id_handshake_roundtrip_witness :
    node_id_handshake.is_query_flag
        (node_id_handshake.mk_fields live_constants none
          (some (List.replicate 32 7, List.replicate 64 9))).header
        = (none : Option (List Nat)).isSome ∧
      node_id_handshake.is_response_flag
        (node_id_handshake.mk_fields live_constants none
          (some (List.replicate 32 7, List.replicate 64 9))).header
        = (some (List.replicate 32 7, List.replicate 64 9)).isSome ∧
      (node_id_handshake.serialize live_constants
          (node_id_handshake.mk_fields live_constants none
            (some (List.replicate 32 7, List.replicate 64 9)))).length
        = 8 + (if (none : Option (List Nat)).isSome then 32 else 0)
          + (if (some (List.replicate 32 7, List.replicate 64 9)).isSome then 96 else 0) ∧
      ∃ header s m2,
        message_header.deserialize live_constants
            (node_id_handshake.serialize live_constants
              (node_id_handshake.mk_fields live_constants none
                (some (List.replicate 32 7, List.replicate 64 9))))
          = some (header, s) ∧
        node_id_handshake.deserialize header s = some (m2, []) ∧
        m2.query = none ∧ m2.response = some (List.replicate 32 7, List.replicate 64 9) :=
  node_id_handshake_roundtrip live_constants none
    (some (List.replicate 32 7, List.replicate 64 9))
    (by intro q hq; cases hq)
    (by intro r hr; cases hr; exact ⟨List.length_replicate _ _, List.length_replicate _ _⟩)

set_option maxRecDepth 8192 in
/-- C17, evaluated on the code: for the handshake with neither query nor response, and for
the one with a query only, `operator==` between the decoded message and the original
dereferences an empty optional, so it has no value; with both fields present it is true. -/
theorem node_id_handshake_eq_absent :
    (∃ m2, node_id_handshake.deserialize
          (node_id_handshake.mk_fields live_constants none none).header [] = some (m2, []) ∧
        node_id_handshake.eq m2 (node_id_handshake.mk_fields live_constants none none) = none) ∧
    (∃ m2, node_id_handshake.deserialize
          (node_id_handshake.mk_fields live_constants (some (List.replicate 32 1)) none).header
          (List.replicate 32 1) = some (m2, []) ∧
        node_id_handshake.eq m2
          (node_id_handshake.mk_fields live_constants (some (List.replicate 32 1)) none) = none) ∧
    (∃ m2, node_id_handshake.deserialize
          (node_id_handshake.mk_fields live_constants (some (List.replicate 32 1))
            (some (List.replicate 32 2, List.replicate 64 3))).header
          (List.replicate 32 1 ++ (List.replicate 32 2 ++ List.replicate 64 3)) = some (m2, []) ∧
        node_id_handshake.eq m2
          (node_id_handshake.mk_fields live_constants (some (List.replicate 32 1))
            (some (List.replicate 32 2, List.replicate 64 3))) = some true) := by
  refine ⟨⟨node_id_handshake.mk_fields live_constants none none, by decide, by decide⟩,
    ⟨node_id_handshake.mk_fields live_constants (some (List.replicate 32 1)) none,
      by decide, by decide⟩,
    ⟨node_id_handshake.mk_fields live_constants (some (List.replicate 32 1))
        (some (List.replicate 32 2, List.replicate 64 3)), by decide, by decide⟩⟩

theorem block_type_set_zero_outside (c : constants) (type_a t i : Nat) (ht : t < 16)
    (hout : i < 8 ∨ 12 ≤ i) :
    ((message_header.mk_type c type_a).block_type_set t).extensions.testBit i = false := by
  rw [block_type_set_frame (message_header.mk_type c type_a) t i
    (by simp [message_header.mk_type]) ht hout]
  simp [message_header.mk_type]

/-- C18: a confirm_ack built from a vote with a first entry has header block type
`not_a_block` when that entry is a hash and the type of the entry's block otherwise; the
header is the same whatever the later entries are, and every extensions bit outside bits
8-11 is zero. -/
theorem confirm_ack_header_block_type {Block : Type} (c : constants) (type_of : Block → Nat)
    (vote_a : vote Block) (first : Block ⊕ List Nat) (rest : List (Block ⊕ List Nat))
    (hB : ∀ t ∈ c.block_type.enumerators, t < 16)
    (hfirst : ∀ b, first = Sum.inl b → type_of b ∈ c.block_type.enumerators)
    (hv : vote_a.blocks = first :: rest) :
    ∃ m, confirm_ack.mk_vote c type_of vote_a = some m ∧
      m.header.block_type
        = (match first with
            | Sum.inr _ => c.block_type.not_a_block
            | Sum.inl block => type_of block) ∧
      (∀ i, (i < 8 ∨ 12 ≤ i) → m.header.extensions.testBit i = false) ∧
      ∀ (other : vote Block) (later : List (Block ⊕ List Nat)), other.blocks = first :: later →
        ∃ m2, confirm_ack.mk_vote c type_of other = some m2 ∧ m2.header = m.header := by
  cases first with
  | inr hash =>
    have h16 : c.block_type.not_a_block < 16 := hB _ (by simp [block_type.enumerators])
    refine ⟨⟨message_header.block_type_set (message_header.mk_type c c.message_type.confirm_ack)
        c.block_type.not_a_block, vote_a⟩, by simp [confirm_ack.mk_vote, hv],
      block_type_of_set _ _ h16, fun i hi => block_type_set_zero_outside c _ _ i h16 hi, ?_⟩
    intro other later ho
    exact ⟨⟨message_header.block_type_set
        (message_header.mk_type c c.message_type.confirm_ack) c.block_type.not_a_block, other⟩,
      by simp [confirm_ack.mk_vote, ho], rfl⟩
  | inl block =>
    have h16 : type_of block < 16 := hB _ (hfirst block rfl)
    refine ⟨⟨message_header.block_type_set (message_header.mk_type c c.message_type.confirm_ack)
        (type_of block), vote_a⟩, by simp [confirm_ack.mk_vote, hv],
      block_type_of_set _ _ h16, fun i hi => block_type_set_zero_outside c _ _ i h16 hi, ?_⟩
    intro other later ho
    exact ⟨⟨message_header.block_type_set
        (message_header.mk_type c c.message_type.confirm_ack) (type_of block), other⟩,
      by simp [confirm_ack.mk_vote, ho], rfl⟩

theorem confirm_ack_header_block_type_witness :
    ∃ m, confirm_ack.mk_vote live_constants (fun _ : Nat => 6)
        { account := [], signature := [], sequence := 1,
          blocks := [Sum.inr [1, 2], Sum.inl 5] } = some m ∧
      m.header.block_type
        = (match (Sum.inr [1, 2] : Nat ⊕ List Nat) with
            | Sum.inr _ => live_constants.block_type.not_a_block
            | Sum.inl block => (fun _ : Nat => 6) block) ∧
      (∀ i, (i < 8 ∨ 12 ≤ i) → m.header.extensions.testBit i = false) ∧
      ∀ (other : vote Nat) (later : List (Nat ⊕ List Nat)),
        other.blocks = Sum.inr [1, 2] :: later →
        ∃ m2, confirm_ack.mk_vote live_constants (fun _ : Nat => 6) other = some m2 ∧
          m2.header = m.header :=
  confirm_ack_header_block_type live_constants (fun _ : Nat => 6)
    { account := [], signature := [], sequence := 1, blocks := [Sum.inr [1, 2], Sum.inl 5] }
    (Sum.inr [1, 2]) [Sum.inl 5] (by decide) (by intro b hb; cases hb) rfl

theorem confirm_ack_work_pass {Block : Type} (X : collaborators Block) (status : parse_status)
    (blocks : List (Block ⊕ List Nat))
    (h : ∀ b, Sum.inl b ∈ blocks → X.work_validate b = false) :
    message_parser_state.confirm_ack_work X status blocks = status := by
  induction blocks with
  | nil => rfl
  | cons e rest ih =>
    have hr := ih (fun b hb => h b (List.mem_cons_of_mem _ hb))
    cases e with
    | inl b =>
      have hb := h b (List.mem_cons_self _ _)
      simp [message_parser_state.confirm_ack_work, hb, hr]
    | inr hash => simp [message_parser_state.confirm_ack_work, hr]

theorem confirm_ack_work_fail {Block : Type} (X : collaborators Block) (status : parse_status)
    (blocks : List (Block ⊕ List Nat))
    (h : ∃ b, Sum.inl b ∈ blocks ∧ X.work_validate b = true) :
    message_parser_state.confirm_ack_work X status blocks = parse_status.insufficient_work := by
  induction blocks with
  | nil =>
    obtain ⟨b, hb, -⟩ := h
    simp at hb
  | cons e rest ih =>
    obtain ⟨b, hb, hw⟩ := h
    cases e with
    | inl b0 =>
      by_cases h0 : X.work_validate b0 = true
      · simp [message_parser_state.confirm_ack_work, h0]
      · have hmem : Sum.inl b ∈ rest := by
          rcases List.mem_cons.mp hb with heq | hin
          · have : b = b0 := Sum.inl.inj heq
            subst this
            exact absurd hw h0
          · exact hin
        simp [message_parser_state.confirm_ack_work, h0, ih ⟨b, hmem, hw⟩]
    | inr hash =>
      have hmem : Sum.inl b ∈ rest := by
        rcases List.mem_cons.mp hb with heq | hin
        · cases heq
        · exact hin
      simp [message_parser_state.confirm_ack_work, ih ⟨b, hmem, hw⟩]

/-- C19: for a confirm_ack header that passes the checks and a vote that decodes and
consumes the stream completely, the parser ends with `success` and exactly one
`visitor.confirm_ack` call if and only if every full-block entry of the vote it holds passes
the work check; otherwise the status is `insufficient_work` and the visitor is not called.
Hash entries are not checked, so a vote of hashes only gives `success`. -/
theorem confirm_ack_work_gate {Block : Type} (c : constants) (X : collaborators Block)
    (p : message_parser_state Block) (buffer_a : List Nat) (header : message_header) (s : stream)
    (v : vote Block) (henum : c.message_type.enumerators.Nodup)
    (hsize : buffer_a.length ≤ 508)
    (hdec : message_header.deserialize c buffer_a = some (header, s))
    (hok : message_parser_state.passes_checks c header)
    (htype : header.type = c.message_type.confirm_ack)
    (hvote : X.vote_deserialize s header.block_type = some (v, [])) :
    (((message_parser_state.deserialize_buffer c X p buffer_a).status = parse_status.success ∧
        (message_parser_state.deserialize_buffer c X p buffer_a).visitor
          = p.visitor ++ [visitor_call.confirm_ack
              { header := header, vote := X.vote_unique v }]) ↔
      ∀ b, Sum.inl b ∈ (X.vote_unique v).blocks → X.work_validate b = false) ∧
    ((¬ ∀ b, Sum.inl b ∈ (X.vote_unique v).blocks → X.work_validate b = false) →
      (message_parser_state.deserialize_buffer c X p buffer_a).status
          = parse_status.insufficient_work ∧
        (message_parser_state.deserialize_buffer c X p buffer_a).visitor = p.visitor) ∧
    ((∀ e ∈ (X.vote_unique v).blocks, ∃ hash, e = Sum.inr hash) →
      (message_parser_state.deserialize_buffer c X p buffer_a).status = parse_status.success) := by
  rw [deserialize_buffer_of_header c X p buffer_a header s hsize hdec hok]
  simp only [message_type.enumerators, List.nodup_cons, List.mem_cons, List.mem_singleton,
    not_or, List.not_mem_nil, not_false_eq_true, List.nodup_nil, and_true] at henum
  obtain ⟨⟨-, -, k, -⟩, ⟨-, q, -⟩, ⟨r, -⟩, -⟩ := henum
  have n1 : ¬ c.message_type.confirm_ack = c.message_type.keepalive := fun e => k e.symm
  have n2 : ¬ c.message_type.confirm_ack = c.message_type.publish := fun e => q e.symm
  have n3 : ¬ c.message_type.confirm_ack = c.message_type.confirm_req := fun e => r e.symm
  have hd : message_parser_state.dispatch c X { p with status := parse_status.success } s header
      = message_parser_state.deserialize_confirm_ack X { p with status := parse_status.success }
          s header := by
    simp [message_parser_state.dispatch, htype, n1, n2, n3]
  rw [hd]
  rcases Classical.em (∀ b, Sum.inl b ∈ (X.vote_unique v).blocks → X.work_validate b = false)
    with hall | hall
  · have hw := confirm_ack_work_pass X parse_status.success _ hall
    have hres : message_parser_state.deserialize_confirm_ack X
        { p with status := parse_status.success } s header
        = { status := parse_status.success,
            visitor := p.visitor ++ [visitor_call.confirm_ack
              { header := header, vote := X.vote_unique v }] } := by
      simp [message_parser_state.deserialize_confirm_ack, confirm_ack.deserialize, hvote,
        message_parser_state.at_end, read_uint8, hw]
    rw [hres]
    refine ⟨⟨fun _ => hall, fun _ => ⟨rfl, rfl⟩⟩, fun h => absurd hall h, fun _ => rfl⟩
  · have hex : ∃ b, Sum.inl b ∈ (X.vote_unique v).blocks ∧ X.work_validate b = true := by
      by_contra hne
      apply hall
      intro b hb
      by_contra hwv
      exact hne ⟨b, hb, by simpa using hwv⟩
    have hw := confirm_ack_work_fail X parse_status.success _ hex
    have hres : message_parser_state.deserialize_confirm_ack X
        { p with status := parse_status.success } s header
        = { status := parse_status.insufficient_work, visitor := p.visitor } := by
      simp [message_parser_state.deserialize_confirm_ack, confirm_ack.deserialize, hvote,
        message_parser_state.at_end, read_uint8, hw]
    rw [hres]
    refine ⟨⟨fun h => ?_, fun h => absurd h hall⟩, fun _ => ⟨rfl, rfl⟩, fun hh => ?_⟩
    · have := h.1
      simp at this
    · obtain ⟨b, hb, -⟩ := hex
      obtain ⟨hash, he⟩ := hh _ hb
      cases he

theorem confirm_ack_work_gate_witness :
    (message_parser_state.deserialize_buffer live_constants vote_collaborators
        (message_parser_state.initial Nat) [0x52, 0x43, 0x10, 0x10, 0x0d, 5, 0, 1, 200, 3]).status
      = parse_status.success ∧
    (message_parser_state.deserialize_buffer live_constants vote_collaborators
        (message_parser_state.initial Nat) [0x52, 0x43, 0x10, 0x10, 0x0d, 5, 0, 1, 200, 3]).visitor
      = (message_parser_state.initial Nat).visitor ++ [visitor_call.confirm_ack
          { header := ⟨0x10, 0x10, 0x0d, 5, 0x100⟩,
            vote := vote_collaborators.vote_unique
              { account := [], signature := [], sequence := 0,
                blocks := [Sum.inr [200], Sum.inl 3] } }] :=
  (confirm_ack_work_gate live_constants vote_collaborators (message_parser_state.initial Nat)
    [0x52, 0x43, 0x10, 0x10, 0x0d, 5, 0, 1, 200, 3] ⟨0x10, 0x10, 0x0d, 5, 0x100⟩ [200, 3]
    { account := [], signature := [], sequence := 0, blocks := [Sum.inr [200], Sum.inl 3] }
    (by decide) (by decide) (by decide) (by decide) (by decide) (by rfl)).1.2
    (by
      intro b hb
      simp [vote_collaborators] at hb
      subst hb
      rfl)

/-- C20, evaluated on the code: `parse_port` accepts the texts `65536` and `70000` (it
returns false) and leaves their values modulo 65536 in the port, and `parse_address_port`
accepts `::1:65536`: the range test compares the number of characters converted, not the
value. -/
theorem parse_port_out_of_range_accepted :
    parse_port ['6', '5', '5', '3', '6'] 0 = (false, 0) ∧
      parse_port ['7', '0', '0', '0', '0'] 0 = (false, 4464) ∧
      parse_address_port loopback_from_string [':', ':', '1', ':', '6', '5', '5', '3', '6'] [] 7
        = (false, [':', ':', '1'], 0) := by
  decide

theorem parse_address_port_no_colon {Address : Type} (from_string : List Char → Option Address)
    (string : List Char) (address_a : Address) (port_a : Nat)
    (h : rfind ':' string = none ∨ rfind ':' string = some 0) :
    parse_address_port from_string string address_a port_a = (true, address_a, port_a) := by
  rcases h with h | h <;> simp [parse_address_port, h]

theorem parse_port_not_numeric (string_a : List Char) (port_a : Nat)
    (h : stoul string_a = none) : parse_port string_a port_a = (true, port_a) := by
  simp [parse_port, h]

theorem bitset_set_testBit (bits pos i : Nat) (value : Bool) (hb : bits < 65536)
    (hp : pos < 16) :
    (bitset_set bits pos value).testBit i = if i = pos then value else bits.testBit i := by
  have h65 : (65536 : Nat) = 2 ^ 16 := by norm_num
  have hmask : (65535 : Nat) = 2 ^ 16 - 1 := by norm_num
  cases value with
  | true =>
    simp only [bitset_set, if_true, h65, Nat.testBit_or, Nat.testBit_mod_two_pow,
      Nat.one_shiftLeft, Nat.testBit_two_pow]
    by_cases hi : i = pos
    · subst hi
      simp [hp]
    · have : ¬ pos = i := fun e => hi e.symm
      simp [hi, this]
  | false =>
    simp only [bitset_set, Bool.false_eq_true, if_false, h65, hmask, Nat.testBit_and,
      Nat.testBit_xor, Nat.testBit_mod_two_pow, Nat.one_shiftLeft, Nat.testBit_two_pow,
      Nat.testBit_two_pow_sub_one]
    by_cases hi : i = pos
    · subst hi
      simp [hp]
    · have hne : ¬ pos = i := fun e => hi e.symm
      by_cases h16 : i < 16
      · simp [hi, hne, h16]
      · have hz : bits.testBit i = false := testBit_of_lt bits 16 i (by simpa using hb) (by omega)
        simp [hi, hz]

theorem block_type_eq_of_bits (h h2 : message_header)
    (hbits : ∀ i, 8 ≤ i → i < 12 → h2.extensions.testBit i = h.extensions.testBit i) :
    h2.block_type = h.block_type := by
  unfold message_header.block_type
  apply Nat.eq_of_testBit_eq
  intro i
  simp only [Nat.testBit_shiftRight, Nat.testBit_and, mask_testBit]
  by_cases hi : 8 + i < 12
  · rw [hbits (8 + i) (by omega) hi]
  · simp [hi]

theorem flag_setter_frame (h h2 : message_header) (pos : Nat) (value : Bool)
    (he : h.extensions < 65536) (hp : pos < 8)
    (h2e : h2.extensions = bitset_set h.extensions pos value) :
    h2.extensions.testBit pos = value ∧ h2.block_type = h.block_type ∧
      ∀ i, i ≠ pos → h2.extensions.testBit i = h.extensions.testBit i := by
  have hb := fun i => bitset_set_testBit h.extensions pos i value he (by omega)
  refine ⟨?_, ?_, ?_⟩
  · rw [h2e, hb pos]
    simp
  · apply block_type_eq_of_bits
    intro i h8 _
    rw [h2e, hb i]
    have : ¬ i = pos := by omega
    simp [this]
  · intro i hi
    rw [h2e, hb i]
    simp [hi]

/-- C21: for a 16-bit extensions value and either boolean `v`, `bulk_pull::set_count_present`
and `node_id_handshake::set_query_flag` change only bit 0 and
`node_id_handshake::set_response_flag` changes only bit 1: the matching getter then returns
`v`, `header.block_type ()` is as before, and every other bit is unchanged. -/
theorem flag_setters_frame (h : message_header) (v : Bool) (he : h.extensions < 65536) :
    (bulk_pull.is_count_present (bulk_pull.set_count_present h v) = v ∧
      (bulk_pull.set_count_present h v).block_type = h.block_type ∧
      ∀ i, i ≠ 0 →
        (bulk_pull.set_count_present h v).extensions.testBit i = h.extensions.testBit i) ∧
    (node_id_handshake.is_query_flag (node_id_handshake.set_query_flag h v) = v ∧
      (node_id_handshake.set_query_flag h v).block_type = h.block_type ∧
      ∀ i, i ≠ 0 →
        (node_id_handshake.set_query_flag h v).extensions.testBit i = h.extensions.testBit i) ∧
    (node_id_handshake.is_response_flag (node_id_handshake.set_response_flag h v) = v ∧
      (node_id_handshake.set_response_flag h v).block_type = h.block_type ∧
      ∀ i, i ≠ 1 →
        (node_id_handshake.set_response_flag h v).extensions.testBit i
          = h.extensions.testBit i) :=
  ⟨flag_setter_frame h (bulk_pull.set_count_present h v) 0 v he (by decide) rfl,
    flag_setter_frame h (node_id_handshake.set_query_flag h v) 0 v he (by decide) rfl,
    flag_setter_frame h (node_id_handshake.set_response_flag h v) 1 v he (by decide) rfl⟩

theorem flag_setters_frame_witness :
    node_id_handshake.is_response_flag
        (node_id_handshake.set_response_flag ⟨0x10, 0x10, 0x0d, 10, 0x0603⟩ false) = false ∧
      (node_id_handshake.set_response_flag ⟨0x10, 0x10, 0x0d, 10, 0x0603⟩ false).block_type
        = message_header.block_type ⟨0x10, 0x10, 0x0d, 10, 0x0603⟩ ∧
      ∀ i, i ≠ 1 →
        (node_id_handshake.set_response_flag ⟨0x10, 0x10, 0x0d, 10, 0x0603⟩ false).extensions.testBit
            i
          = (0x0603 : Nat).testBit i :=
  (flag_setters_frame ⟨0x10, 0x10, 0x0d, 10, 0x0603⟩ false (by decide)).2.2

/-- C22: `message_header::bulk_pull_is_count_present` is false for every header whose type
is not bulk_pull, whatever the extensions; for a header of type bulk_pull it is bit 0 of the
extensions, the value `bulk_pull::is_count_present` gives on the same header. -/
theorem bulk_pull_is_count_present_gated (c : constants) (h : message_header) :
    (h.type ≠ c.message_type.bulk_pull → h.bulk_pull_is_count_present c = false) ∧
      (h.type = c.message_type.bulk_pull →
        h.bulk_pull_is_count_present c = h.extensions.testBit 0 ∧
          h.bulk_pull_is_count_present c = bulk_pull.is_count_present h) := by
  constructor
  · intro ht
    simp [message_header.bulk_pull_is_count_present, ht]
  · intro ht
    cases hb : h.extensions.testBit 0 <;>
      simp [message_header.bulk_pull_is_count_present, ht,
        message_header.bulk_pull_count_present_flag, bulk_pull.is_count_present,
        bulk_pull.count_present_flag, hb]

theorem bulk_pull_is_count_present_gated_witness :
    message_header.bulk_pull_is_count_present live_constants ⟨0x10, 0x10, 0x0d, 10, 1⟩ = false ∧
      (message_header.bulk_pull_is_count_present live_constants ⟨0x10, 0x10, 0x0d, 6, 1⟩
          = (1 : Nat).testBit 0 ∧
        message_header.bulk_pull_is_count_present live_constants ⟨0x10, 0x10, 0x0d, 6, 1⟩
          = bulk_pull.is_count_present ⟨0x10, 0x10, 0x0d, 6, 1⟩) :=
  ⟨(bulk_pull_is_count_present_gated live_constants ⟨0x10, 0x10, 0x0d, 10, 1⟩).1 (by decide),
    (bulk_pull_is_count_present_gated live_constants ⟨0x10, 0x10, 0x0d, 6, 1⟩).2 rfl⟩

theorem bulk_pull_deserialize_padding (sizeof_count : Nat) (hn : sizeof_count < 7)
    (h : message_header) (start end_ count_bytes padding : List Nat) (rest : stream)
    (hp : bulk_pull.is_count_present h = true) (hs : start.length = 32)
    (he : end_.length = 32) (hc : count_bytes.length = sizeof_count)
    (hpad : padding.length = bulk_pull.extended_parameters_size - 1 - sizeof_count) :
    bulk_pull.deserialize sizeof_count h
        (start ++ end_ ++ ([0] ++ count_bytes ++ padding) ++ rest)
      = some ({ header := h, start := start, end_ := end_,
                count := of_little_endian count_bytes }, rest) := by
  have hlen : ([0] ++ count_bytes ++ padding).length = bulk_pull.extended_parameters_size := by
    simp [hc, hpad, bulk_pull.extended_parameters_size]
    omega
  have htake : List.take sizeof_count (count_bytes ++ padding) = count_bytes := by
    rw [List.take_append_of_le_length (by rw [hc])]
    exact List.take_of_length_le (by rw [hc])
  rw [bulk_pull_deserialize_extended sizeof_count h start end_ _ rest hp hs he hlen (by simp)]
  simp [htake]

/-- C23: with the count-present bit set, `bulk_pull::deserialize` takes `count` from the
`sizeof (count)` bytes after the zero reserved byte and ignores the rest of the 8-byte
extended block: payloads that differ only in those padding bytes decode without error to
the same `start`, `end` and `count`.  So two different payloads decode to one message, and
`serialize` of that message, which pads with zeros, gives back only one of them. -/
theorem bulk_pull_padding_ignored (c : constants) (sizeof_count : Nat) (h : message_header)
    (h0 : 0 < sizeof_count) (hn : sizeof_count < 7)
    (hp : bulk_pull.is_count_present h = true) :
    (∀ (start end_ count_bytes padding other_padding : List Nat) (rest : stream),
      start.length = 32 → end_.length = 32 → count_bytes.length = sizeof_count →
      padding.length = bulk_pull.extended_parameters_size - 1 - sizeof_count →
      other_padding.length = bulk_pull.extended_parameters_size - 1 - sizeof_count →
      bulk_pull.deserialize sizeof_count h
          (start ++ end_ ++ ([0] ++ count_bytes ++ padding) ++ rest)
        = some ({ header := h, start := start, end_ := end_,
                  count := of_little_endian count_bytes }, rest) ∧
      bulk_pull.deserialize sizeof_count h
          (start ++ end_ ++ ([0] ++ count_bytes ++ other_padding) ++ rest)
        = bulk_pull.deserialize sizeof_count h
          (start ++ end_ ++ ([0] ++ count_bytes ++ padding) ++ rest)) ∧
    (∃ (p1 p2 : stream) (m : bulk_pull), p1 ≠ p2 ∧
      bulk_pull.deserialize sizeof_count h p1 = some (m, []) ∧
      bulk_pull.deserialize sizeof_count h p2 = some (m, []) ∧
      bulk_pull.serialize_assertion m ∧
      bulk_pull.serialize c sizeof_count m = message_header.serialize c h ++ p1 ∧
      bulk_pull.serialize c sizeof_count m ≠ message_header.serialize c h ++ p2) := by
  constructor
  · intro start end_ count_bytes padding other_padding rest hs he hc hpad hother
    rw [bulk_pull_deserialize_padding sizeof_count hn h start end_ count_bytes padding rest hp hs
        he hc hpad,
      bulk_pull_deserialize_padding sizeof_count hn h start end_ count_bytes other_padding rest
        hp hs he hc hother]
    exact ⟨rfl, rfl⟩
  · obtain ⟨k, hk⟩ : ∃ k, bulk_pull.extended_parameters_size - 1 - sizeof_count = k + 1 :=
      ⟨6 - sizeof_count, by simp only [bulk_pull.extended_parameters_size]; omega⟩
    have h1 : (1 : Nat) < 256 ^ sizeof_count :=
      Nat.one_lt_pow (Nat.pos_iff_ne_zero.mp h0) (by norm_num)
    have hzero : (List.replicate 32 0 : List Nat).length = 32 := List.length_replicate _ _
    have hc : (to_little_endian sizeof_count 1).length = sizeof_count :=
      to_little_endian_length _ _
    have hd1 := bulk_pull_deserialize_padding sizeof_count hn h (List.replicate 32 0)
      (List.replicate 32 0) (to_little_endian sizeof_count 1)
      (List.replicate (bulk_pull.extended_parameters_size - 1 - sizeof_count) 0) [] hp hzero
      hzero hc (List.length_replicate _ _)
    have hd2 := bulk_pull_deserialize_padding sizeof_count hn h (List.replicate 32 0)
      (List.replicate 32 0) (to_little_endian sizeof_count 1)
      (List.replicate (bulk_pull.extended_parameters_size - 1 - sizeof_count) 1) [] hp hzero
      hzero hc (List.length_replicate _ _)
    rw [of_to_little_endian, Nat.mod_eq_of_lt h1, List.append_nil] at hd1 hd2
    have hne : List.replicate 32 0 ++ List.replicate 32 0
          ++ ([0] ++ to_little_endian sizeof_count 1
            ++ List.replicate (bulk_pull.extended_parameters_size - 1 - sizeof_count) 0)
        ≠ List.replicate 32 0 ++ List.replicate 32 0
          ++ ([0] ++ to_little_endian sizeof_count 1
            ++ List.replicate (bulk_pull.extended_parameters_size - 1 - sizeof_count) 1) := by
      intro heq
      have e1 := List.append_cancel_left (List.append_cancel_left heq)
      rw [hk] at e1
      simp [List.replicate_succ] at e1
    have hser : bulk_pull.serialize c sizeof_count
          { header := h, start := List.replicate 32 0, end_ := List.replicate 32 0, count := 1 }
        = message_header.serialize c h
          ++ (List.replicate 32 0 ++ List.replicate 32 0
            ++ ([0] ++ to_little_endian sizeof_count 1
              ++ List.replicate (bulk_pull.extended_parameters_size - 1 - sizeof_count) 0)) := by
      simp [bulk_pull.serialize, hp, List.append_assoc]
    refine ⟨_, _, _, hne, hd1, hd2, Or.inr ⟨Nat.one_ne_zero, hp⟩, hser, ?_⟩
    rw [hser]
    intro heq
    exact hne (List.append_cancel_left heq)

theorem bulk_pull_padding_ignored_witness :
    bulk_pull.deserialize 4 ⟨0x10, 0x10, 0x0d, 6, 1⟩
        (List.replicate 32 1 ++ List.replicate 32 2 ++ ([0] ++ [4, 3, 2, 1] ++ [9, 8, 7]) ++ [])
      = some ({ header := ⟨0x10, 0x10, 0x0d, 6, 1⟩, start := List.replicate 32 1,
                end_ := List.replicate 32 2, count := of_little_endian [4, 3, 2, 1] }, []) ∧
    bulk_pull.deserialize 4 ⟨0x10, 0x10, 0x0d, 6, 1⟩
        (List.replicate 32 1 ++ List.replicate 32 2 ++ ([0] ++ [4, 3, 2, 1] ++ [0, 0, 0]) ++ [])
      = bulk_pull.deserialize 4 ⟨0x10, 0x10, 0x0d, 6, 1⟩
        (List.replicate 32 1 ++ List.replicate 32 2 ++ ([0] ++ [4, 3, 2, 1] ++ [9, 8, 7]) ++ []) :=
  (bulk_pull_padding_ignored live_constants 4 ⟨0x10, 0x10, 0x0d, 6, 1⟩ (by decide) (by decide)
      (by decide)).1
    (List.replicate 32 1) (List.replicate 32 2) [4, 3, 2, 1] [9, 8, 7] [0, 0, 0] []
    (List.length_replicate _ _) (List.length_replicate _ _) rfl rfl rfl

end nano
